import Mathlib

/-!
Verification of the Stable Fluids solver (2D semi-Lagrangian incompressible
fluid simulation) from this repository.  The solver operates on a square grid
of `numCells × numCells` interior cells surrounded by a one-cell ghost border;
all fields are flat arrays of `(numCells+2)^2` 32-bit floats indexed by
`index i j = i + (numCells+2)*j`.  We embed the arrays as total functions
`ℤ → ℚ` (reads and writes at the exact linear indices the code uses) and every
loop as a left fold over the exact sequence of loop indices, so the sequential
in-place Gauss-Seidel updates and boundary writes happen in the same order as
in the source.  Loop bodies are split off as named definitions so that the
lemmas can speak about one iteration at a time.
-/

set_option maxHeartbeats 1600000
set_option maxRecDepth 8192

namespace StableFluids

/-- Interior resolution of the grid (`numCells` in the source). -/
def numCells : ℕ := 50

/-- Total number of cells including the ghost border (`size` in the source). -/
def size : ℕ := (numCells + 2) * (numCells + 2)

/-- Number of solver sub-steps per rendered frame (`numSubSteps` in the source). -/
def numSubSteps : ℕ := 8

/-- Fixed time step: `dt = 1.0 / (numSubSteps * 30.0)`. -/
def dt : ℚ := 1 / ((numSubSteps : ℚ) * 30)

/-- A simulation field: contents of one flat `Float32Array`, as a total map
from linear index to value. -/
def Field : Type := ℤ → ℚ

/-- 2D-to-linear index mapping (`index` in the source): `i + (numCells+2)*j`. -/
def index (i j : ℤ) : ℤ := i + ((numCells : ℤ) + 2) * j

/-- A single in-place array store `x[k] = v`. -/
def setCell (x : Field) (k : ℤ) (v : ℚ) : Field := fun m => if m = k then v else x m

/-- The boundary tag `"continuous"`. -/
def continuousB : String := "continuous"

/-- The boundary tag `"left_right_walls"`. -/
def leftRightWallsB : String := "left_right_walls"

/-- The boundary tag `"top_bottom_walls"`. -/
def topBottomWallsB : String := "top_bottom_walls"

/-- `addSource(x, s)`: `x[i] += dt * s[i]` for every `0 ≤ i < size`. -/
def addSource (x s : Field) : Field :=
  fun k => if 0 ≤ k ∧ k < (size : ℤ) then x k + dt * s k else x k

/-- One iteration of the first `setBoundary` loop: write the top (`j = 0`) and
bottom (`j = numCells+1`) ghost cells of column `i`, negated under
`top_bottom_walls` and mirrored otherwise. -/
def boundaryTopBottomBody (boundaryType : String) (x : Field) (i : ℕ) : Field :=
  if boundaryType = topBottomWallsB then
    let x1 := setCell x (index (i : ℤ) 0) (-(x (index (i : ℤ) 1)))
    setCell x1 (index (i : ℤ) ((numCells : ℤ) + 1)) (-(x1 (index (i : ℤ) (numCells : ℤ))))
  else
    let x1 := setCell x (index (i : ℤ) 0) (x (index (i : ℤ) 1))
    setCell x1 (index (i : ℤ) ((numCells : ℤ) + 1)) (x1 (index (i : ℤ) (numCells : ℤ)))

/-- First half of `setBoundary`: the loop over `1 ≤ i ≤ numCells`. -/
def boundaryTopBottom (x : Field) (boundaryType : String) : Field :=
  (List.range' 1 numCells).foldl (boundaryTopBottomBody boundaryType) x

/-- One iteration of the second `setBoundary` loop: write the left (`i = 0`)
and right (`i = numCells+1`) ghost cells of row `j`, negated under
`left_right_walls` and mirrored otherwise. -/
def boundaryLeftRightBody (boundaryType : String) (x : Field) (j : ℕ) : Field :=
  if boundaryType = leftRightWallsB then
    let x1 := setCell x (index 0 (j : ℤ)) (-(x (index 1 (j : ℤ))))
    setCell x1 (index ((numCells : ℤ) + 1) (j : ℤ)) (-(x1 (index (numCells : ℤ) (j : ℤ))))
  else
    let x1 := setCell x (index 0 (j : ℤ)) (x (index 1 (j : ℤ)))
    setCell x1 (index ((numCells : ℤ) + 1) (j : ℤ)) (x1 (index (numCells : ℤ) (j : ℤ)))

/-- Second half of `setBoundary`: the loop over `1 ≤ j ≤ numCells`. -/
def boundaryLeftRight (x : Field) (boundaryType : String) : Field :=
  (List.range' 1 numCells).foldl (boundaryLeftRightBody boundaryType) x

/-- Final part of `setBoundary`: the four corner ghost cells receive the
average of their two adjacent edge ghost cells, in source order. -/
def boundaryCorners (x : Field) : Field :=
  let x := setCell x (index 0 0) (0.5 * (x (index 0 1) + x (index 1 0)))
  let x := setCell x (index ((numCells : ℤ) + 1) 0)
    (0.5 * (x (index ((numCells : ℤ) + 1) 1) + x (index (numCells : ℤ) 0)))
  let x := setCell x (index 0 ((numCells : ℤ) + 1))
    (0.5 * (x (index 0 (numCells : ℤ)) + x (index 1 ((numCells : ℤ) + 1))))
  setCell x (index ((numCells : ℤ) + 1) ((numCells : ℤ) + 1))
    (0.5 * (x (index ((numCells : ℤ) + 1) (numCells : ℤ)) + x (index (numCells : ℤ) ((numCells : ℤ) + 1))))

/-- `setBoundary(x, boundaryType)` from the source: top/bottom edge loop, then
left/right edge loop, then the four corners. -/
def setBoundary (x : Field) (boundaryType : String) : Field :=
  boundaryCorners (boundaryLeftRight (boundaryTopBottom x boundaryType) boundaryType)

/-- Row-major list of interior cells: `i` outer (1..numCells), `j` inner, the
visiting order of every `for i ... for j ...` nest in the source. -/
def interiorPairs : List (ℕ × ℕ) := (List.range' 1 numCells).product (List.range' 1 numCells)

/-- One Gauss-Seidel cell update of `diffuse`, the source's two statements:
`x[ij] = x_0[ij] + a*(4 neighbors of x)` followed by `x[ij] /= 1 + 4a`. -/
def diffuseBody (x_0 : Field) (a : ℚ) (x : Field) (q : ℕ × ℕ) : Field :=
  let i : ℤ := q.1
  let j : ℤ := q.2
  let x1 := setCell x (index i j)
    (x_0 (index i j) +
      a * (x (index (i - 1) j) + x (index (i + 1) j) +
           x (index i (j - 1)) + x (index i (j + 1))))
  setCell x1 (index i j) (x1 (index i j) / (1 + 4 * a))

/-- `diffuse(x, x_0, boundaryType)`: 4 in-place Gauss-Seidel sweeps for the
implicit diffusion equation with `a = dt * diffusion_rate / h²`, boundary
conditions applied after each sweep. -/
def diffuse (x x_0 : Field) (boundaryType : String) : Field :=
  let diffusion_rate : ℚ := 0.0001
  let numIters : ℕ := 4
  let h : ℚ := 1 / (numCells : ℚ)
  let a : ℚ := dt * diffusion_rate / (h * h)
  (List.range numIters).foldl (fun x _ =>
    setBoundary (interiorPairs.foldl (diffuseBody x_0 a) x) boundaryType) x

/-- The source's clamp of a backtraced coordinate: `if (p < 0.5) p = 0.5;`
then `if (p > numCells + 0.5) p = numCells + 0.5;`. -/
def clampCoord (p : ℚ) : ℚ :=
  let p := if p < 0.5 then 0.5 else p
  if p > (numCells : ℚ) + 0.5 then (numCells : ℚ) + 0.5 else p

/-- The value `advect` writes into interior cell `q = (i, j)`: backtrace one
explicit Euler step against `(u_0, v_0)`, clamp, and bilinearly interpolate
`x_0` at the resulting point. -/
def advectValue (x_0 u_0 v_0 : Field) (q : ℕ × ℕ) : ℚ :=
  let i : ℤ := q.1
  let j : ℤ := q.2
  let p_x : ℚ := clampCoord ((i : ℚ) - dt * u_0 (index i j) * (numCells : ℚ))
  let p_y : ℚ := clampCoord ((j : ℚ) - dt * v_0 (index i j) * (numCells : ℚ))
  let i0 : ℤ := ⌊p_x⌋
  let i1 : ℤ := i0 + 1
  let j0 : ℤ := ⌊p_y⌋
  let j1 : ℤ := j0 + 1
  let s1 : ℚ := p_x - (i0 : ℚ)
  let s0 : ℚ := 1 - s1
  let t1 : ℚ := p_y - (j0 : ℚ)
  let t0 : ℚ := 1 - t1
  s0 * (t0 * x_0 (index i0 j0) + t1 * x_0 (index i0 j1)) +
    s1 * (t0 * x_0 (index i1 j0) + t1 * x_0 (index i1 j1))

/-- `advect(x, x_0, u_0, v_0, boundaryType)`: semi-Lagrangian transport over
all interior cells, then apply the boundary conditions once. -/
def advect (x x_0 u_0 v_0 : Field) (boundaryType : String) : Field :=
  setBoundary
    (interiorPairs.foldl
      (fun x q => setCell x (index (q.1 : ℤ) (q.2 : ℤ)) (advectValue x_0 u_0 v_0 q)) x)
    boundaryType

/-- Result of `project` — the four arrays it mutates in place. -/
structure ProjectResult where
  u : Field
  v : Field
  p : Field
  div : Field

/-- The central-difference divergence value `project` writes into interior
cell `q = (i, j)`:
`((u[i+1,j]-u[i-1,j]) / (-2))*h + ((v[i,j+1]-v[i,j-1]) / (-2))*h`. -/
def projectDivValue (u v : Field) (h : ℚ) (q : ℕ × ℕ) : ℚ :=
  let i : ℤ := q.1
  let j : ℤ := q.2
  ((u (index (i + 1) j) - u (index (i - 1) j)) / (-2)) * h +
    ((v (index i (j + 1)) - v (index i (j - 1))) / (-2)) * h

/-- One Gauss-Seidel cell update of the Poisson solve in `project`:
`p[ij] = (p[i-1,j] + p[i+1,j] + p[i,j-1] + p[i,j+1] + div[ij]) / 4`. -/
def projectPoissonBody (div : Field) (p : Field) (q : ℕ × ℕ) : Field :=
  let i : ℤ := q.1
  let j : ℤ := q.2
  setCell p (index i j)
    ((p (index (i - 1) j) + p (index (i + 1) j) +
      p (index i (j - 1)) + p (index i (j + 1)) + div (index i j)) / 4)

/-- One cell update of the gradient-subtraction loop in `project`:
`u[ij] -= (p[i+1,j]-p[i-1,j])/(2h); v[ij] -= (p[i,j+1]-p[i,j-1])/(2h)`. -/
def projectGradBody (p : Field) (h : ℚ) (uv : Field × Field) (q : ℕ × ℕ) : Field × Field :=
  let i : ℤ := q.1
  let j : ℤ := q.2
  let u := setCell uv.1 (index i j)
    (uv.1 (index i j) - (p (index (i + 1) j) - p (index (i - 1) j)) / (2 * h))
  let v := setCell uv.2 (index i j)
    (uv.2 (index i j) - (p (index i (j + 1)) - p (index i (j - 1))) / (2 * h))
  (u, v)

/-- `project(u, v, p, div)`: zero-fill `p`, compute the central-difference
divergence into `div` (with `continuous` boundary), solve the discrete
Poisson equation by 10 Gauss-Seidel sweeps (boundary after each sweep),
subtract the pressure gradient from the velocity, and re-apply the wall
boundary conditions to `u` and `v`. -/
def project (u v p div : Field) : ProjectResult :=
  let numIters : ℕ := 10
  let h : ℚ := 1 / (numCells : ℚ)
  let p := (List.range size).foldl (fun p (i : ℕ) => setCell p (i : ℤ) 0) p
  let div := interiorPairs.foldl
    (fun div q => setCell div (index (q.1 : ℤ) (q.2 : ℤ)) (projectDivValue u v h q)) div
  let div := setBoundary div continuousB
  let p := (List.range numIters).foldl (fun p _ =>
    setBoundary (interiorPairs.foldl (projectPoissonBody div) p) continuousB) p
  let uv := interiorPairs.foldl (projectGradBody p h) (u, v)
  { u := setBoundary uv.1 leftRightWallsB,
    v := setBoundary uv.2 topBottomWallsB,
    p := p, div := div }

/-- The solver's module-level mutable state: the six field buffers and the
three source buffers. -/
structure FluidState where
  u : Field
  v : Field
  d : Field
  uPrev : Field
  vPrev : Field
  dPrev : Field
  uSource : Field
  vSource : Field
  dSource : Field

/-- `velocityStep()`: inject velocity sources, swap-and-diffuse, project
(scratch = the prev buffers), swap-and-advect, project again. -/
def velocityStep (s : FluidState) : FluidState :=
  let u := addSource s.u s.uSource
  let v := addSource s.v s.vSource
  let uPrev := s.uPrev
  let vPrev := s.vPrev
  let (u, uPrev) := (uPrev, u)
  let (v, vPrev) := (vPrev, v)
  let u := diffuse u uPrev leftRightWallsB
  let v := diffuse v vPrev topBottomWallsB
  let r := project u v uPrev vPrev
  let u := r.u
  let v := r.v
  let uPrev := r.p
  let vPrev := r.div
  let (u, uPrev) := (uPrev, u)
  let (v, vPrev) := (vPrev, v)
  let u := advect u uPrev uPrev vPrev leftRightWallsB
  let v := advect v vPrev uPrev vPrev topBottomWallsB
  let r2 := project u v uPrev vPrev
  { s with u := r2.u, v := r2.v, uPrev := r2.p, vPrev := r2.div }

/-- `densityStep()`: inject the density source, swap-and-diffuse, then
swap-and-advect along the current velocity field. -/
def densityStep (s : FluidState) : FluidState :=
  let d := addSource s.d s.dSource
  let dPrev := s.dPrev
  let (d, dPrev) := (dPrev, d)
  let d := diffuse d dPrev continuousB
  let (d, dPrev) := (dPrev, d)
  let d := advect d dPrev s.u s.v continuousB
  { s with d := d, dPrev := dPrev }

/-- `step()`: one simulation tick — `velocityStep()` then `densityStep()`. -/
def step (s : FluidState) : FluidState := densityStep (velocityStep s)

/-! ### Basic facts about cells and indices -/

theorem setCell_same (x : Field) (k : ℤ) (v : ℚ) : setCell x k v k = v := by
  simp [setCell]

theorem setCell_ne (x : Field) (k m : ℤ) (v : ℚ) (h : m ≠ k) : setCell x k v m = x m := by
  simp [setCell, h]

theorem setCell_setCell (x : Field) (k : ℤ) (v w : ℚ) :
    setCell (setCell x k v) k w = setCell x k w := by
  funext m
  by_cases h : m = k <;> simp [setCell, h]

theorem setCell_self (x : Field) (k : ℤ) : setCell x k (x k) = x := by
  funext m
  by_cases h : m = k <;> simp [setCell, h]

theorem index_val (i j : ℤ) : index i j = i + 52 * j := by
  simp [index, numCells]

theorem size_val : (size : ℤ) = 2704 := by
  simp [size, numCells]

theorem index_ne (a b c d : ℤ) (h : a + 52 * b ≠ c + 52 * d) : index a b ≠ index c d := by
  rw [index_val, index_val]
  exact h

/-! ### Generic lemmas about the write folds -/

theorem foldl_frame {α : Type} (f : Field → α → Field) (l : List α) (k : ℤ)
    (h : ∀ x a, a ∈ l → f x a k = x k) :
    ∀ x, (l.foldl f x) k = x k := by
  induction l with
  | nil => intro x; rfl
  | cons b t ih =>
    intro x
    rw [List.foldl_cons, ih (fun x a ha => h x a (List.mem_cons_of_mem b ha))]
    exact h x b (List.mem_cons_self b t)

theorem foldl_pres {β α : Type} (P : β → Prop) (f : β → α → β) (l : List α)
    (h : ∀ x a, a ∈ l → P x → P (f x a)) :
    ∀ x, P x → P (l.foldl f x) := by
  induction l with
  | nil => intro x hx; exact hx
  | cons b t ih =>
    intro x hx
    rw [List.foldl_cons]
    exact ih (fun x a ha => h x a (List.mem_cons_of_mem b ha)) _
      (h x b (List.mem_cons_self b t) hx)

theorem foldl_ext {β α : Type} (f g : β → α → β) (l : List α)
    (h : ∀ x a, a ∈ l → f x a = g x a) :
    ∀ x, l.foldl f x = l.foldl g x := by
  induction l with
  | nil => intro x; rfl
  | cons b t ih =>
    intro x
    rw [List.foldl_cons, List.foldl_cons, h x b (List.mem_cons_self b t)]
    exact ih (fun x a ha => h x a (List.mem_cons_of_mem b ha)) _

/-- A fold of single-cell writes whose written values do not depend on the
accumulator: any cell that some list element targets ends up holding the
written value. -/
theorem foldl_setCell_indep {α : Type} (tgt : α → ℤ) (val : α → ℚ) (l : List α) (a : α)
    (huniq : ∀ b ∈ l, tgt b = tgt a → val b = val a) :
    ∀ x, (a ∈ l ∨ x (tgt a) = val a) →
      (l.foldl (fun x b => setCell x (tgt b) (val b)) x) (tgt a) = val a := by
  induction l with
  | nil =>
    intro x hx
    rcases hx with h | h
    · cases h
    · exact h
  | cons b t ih =>
    intro x hx
    rw [List.foldl_cons]
    by_cases hb : tgt b = tgt a
    · refine ih (fun c hc => huniq c (List.mem_cons_of_mem b hc)) _ (Or.inr ?_)
      rw [hb, setCell_same]
      exact huniq b (List.mem_cons_self b t) hb
    · refine ih (fun c hc => huniq c (List.mem_cons_of_mem b hc)) _ ?_
      rcases hx with h | h
      · rcases List.mem_cons.mp h with h1 | h1
        · exact absurd (h1 ▸ rfl) hb
        · exact Or.inl h1
      · exact Or.inr ((setCell_ne _ _ _ _ fun he => hb he.symm).trans h)

/-- Membership in the row-major interior cell list. -/
theorem mem_interiorPairs (i j : ℕ) :
    (i, j) ∈ interiorPairs ↔ (1 ≤ i ∧ i ≤ numCells) ∧ (1 ≤ j ∧ j ≤ numCells) := by
  simp only [interiorPairs, List.pair_mem_product, List.mem_range'_1]
  omega

/-- A fold of writes in which element `a` writes cell `k` with `g` applied to
the (never-overwritten) cell `r`, and no other element touches `k` or `r`. -/
theorem foldl_write_stable {α : Type} (f : Field → α → Field) (k r : ℤ) (g : ℚ → ℚ) (a : α) :
    ∀ l : List α, a ∈ l → l.Nodup →
      (∀ x, f x a k = g (x r)) →
      (∀ x b, b ∈ l → b ≠ a → f x b k = x k) →
      (∀ x b, b ∈ l → f x b r = x r) →
      ∀ x, (l.foldl f x) k = g (x r) := by
  intro l
  induction l with
  | nil => intro ha; cases ha
  | cons b t ih =>
    intro ha hnd hwrite hothers hr x
    rw [List.foldl_cons]
    by_cases hab : b = a
    · subst hab
      have hbt : b ∉ t := (List.nodup_cons.mp hnd).1
      rw [foldl_frame _ _ _ (fun y c hc =>
        hothers y c (List.mem_cons_of_mem b hc) (fun he => hbt (he ▸ hc)))]
      exact hwrite x
    · rcases List.mem_cons.mp ha with h1 | h1
      · exact absurd h1.symm hab
      · rw [ih h1 (List.nodup_cons.mp hnd).2 hwrite
          (fun y c hc => hothers y c (List.mem_cons_of_mem b hc))
          (fun y c hc => hr y c (List.mem_cons_of_mem b hc))]
        rw [hr x b (List.mem_cons_self b t)]

/-! ### Characterization of `setBoundary` -/

/-- Sign applied by the top/bottom ghost rows: −1 for `top_bottom_walls`. -/
def tbSign (bt : String) : ℚ := if bt = topBottomWallsB then -1 else 1

/-- Sign applied by the left/right ghost columns: −1 for `left_right_walls`. -/
def lrSign (bt : String) : ℚ := if bt = leftRightWallsB then -1 else 1

theorem boundaryTopBottomBody_ne (bt : String) (y : Field) (b : ℕ) (k : ℤ)
    (h0 : k ≠ index (b : ℤ) 0) (h1 : k ≠ index (b : ℤ) ((numCells : ℤ) + 1)) :
    boundaryTopBottomBody bt y b k = y k := by
  unfold boundaryTopBottomBody
  by_cases hbt : bt = topBottomWallsB
  · simp only [if_pos hbt, setCell_ne _ _ _ _ h1, setCell_ne _ _ _ _ h0]
  · simp only [if_neg hbt, setCell_ne _ _ _ _ h1, setCell_ne _ _ _ _ h0]

theorem boundaryTopBottomBody_at0 (bt : String) (y : Field) (b : ℕ) :
    boundaryTopBottomBody bt y b (index (b : ℤ) 0) = tbSign bt * y (index (b : ℤ) 1) := by
  have hN : numCells = 50 := rfl
  have hne : index (b : ℤ) 0 ≠ index (b : ℤ) ((numCells : ℤ) + 1) :=
    index_ne _ _ _ _ (by omega)
  unfold boundaryTopBottomBody tbSign
  by_cases hbt : bt = topBottomWallsB
  · simp only [if_pos hbt, setCell_ne _ _ _ _ hne, setCell_same, neg_one_mul]
  · simp only [if_neg hbt, setCell_ne _ _ _ _ hne, setCell_same, one_mul]

theorem boundaryTopBottomBody_atB (bt : String) (y : Field) (b : ℕ) :
    boundaryTopBottomBody bt y b (index (b : ℤ) ((numCells : ℤ) + 1)) =
      tbSign bt * y (index (b : ℤ) (numCells : ℤ)) := by
  have hN : numCells = 50 := rfl
  have hne : index (b : ℤ) (numCells : ℤ) ≠ index (b : ℤ) 0 :=
    index_ne _ _ _ _ (by omega)
  unfold boundaryTopBottomBody tbSign
  by_cases hbt : bt = topBottomWallsB
  · simp only [if_pos hbt, setCell_same, setCell_ne _ _ _ _ hne, neg_one_mul]
  · simp only [if_neg hbt, setCell_same, setCell_ne _ _ _ _ hne, one_mul]

theorem boundaryLeftRightBody_ne (bt : String) (y : Field) (b : ℕ) (k : ℤ)
    (h0 : k ≠ index 0 (b : ℤ)) (h1 : k ≠ index ((numCells : ℤ) + 1) (b : ℤ)) :
    boundaryLeftRightBody bt y b k = y k := by
  unfold boundaryLeftRightBody
  by_cases hbt : bt = leftRightWallsB
  · simp only [if_pos hbt, setCell_ne _ _ _ _ h1, setCell_ne _ _ _ _ h0]
  · simp only [if_neg hbt, setCell_ne _ _ _ _ h1, setCell_ne _ _ _ _ h0]

theorem boundaryLeftRightBody_at0 (bt : String) (y : Field) (b : ℕ) :
    boundaryLeftRightBody bt y b (index 0 (b : ℤ)) = lrSign bt * y (index 1 (b : ℤ)) := by
  have hN : numCells = 50 := rfl
  have hne : index 0 (b : ℤ) ≠ index ((numCells : ℤ) + 1) (b : ℤ) :=
    index_ne _ _ _ _ (by omega)
  unfold boundaryLeftRightBody lrSign
  by_cases hbt : bt = leftRightWallsB
  · simp only [if_pos hbt, setCell_ne _ _ _ _ hne, setCell_same, neg_one_mul]
  · simp only [if_neg hbt, setCell_ne _ _ _ _ hne, setCell_same, one_mul]

theorem boundaryLeftRightBody_atB (bt : String) (y : Field) (b : ℕ) :
    boundaryLeftRightBody bt y b (index ((numCells : ℤ) + 1) (b : ℤ)) =
      lrSign bt * y (index (numCells : ℤ) (b : ℤ)) := by
  have hN : numCells = 50 := rfl
  have hne : index (numCells : ℤ) (b : ℤ) ≠ index 0 (b : ℤ) :=
    index_ne _ _ _ _ (by omega)
  unfold boundaryLeftRightBody lrSign
  by_cases hbt : bt = leftRightWallsB
  · simp only [if_pos hbt, setCell_same, setCell_ne _ _ _ _ hne, neg_one_mul]
  · simp only [if_neg hbt, setCell_same, setCell_ne _ _ _ _ hne, one_mul]

theorem boundaryTopBottom_frame (x : Field) (bt : String) (k : ℤ)
    (hk : ∀ i : ℕ, 1 ≤ i → i ≤ numCells →
      k ≠ index (i : ℤ) 0 ∧ k ≠ index (i : ℤ) ((numCells : ℤ) + 1)) :
    boundaryTopBottom x bt k = x k := by
  unfold boundaryTopBottom
  refine foldl_frame _ _ _ (fun y b hb => ?_) x
  rw [List.mem_range'_1] at hb
  exact boundaryTopBottomBody_ne bt y b k
    (hk b hb.1 (by omega)).1 (hk b hb.1 (by omega)).2

theorem boundaryLeftRight_frame (x : Field) (bt : String) (k : ℤ)
    (hk : ∀ j : ℕ, 1 ≤ j → j ≤ numCells →
      k ≠ index 0 (j : ℤ) ∧ k ≠ index ((numCells : ℤ) + 1) (j : ℤ)) :
    boundaryLeftRight x bt k = x k := by
  unfold boundaryLeftRight
  refine foldl_frame _ _ _ (fun y b hb => ?_) x
  rw [List.mem_range'_1] at hb
  exact boundaryLeftRightBody_ne bt y b k
    (hk b hb.1 (by omega)).1 (hk b hb.1 (by omega)).2

theorem boundaryTopBottom_top (x : Field) (bt : String) (i : ℤ)
    (hi1 : 1 ≤ i) (hi2 : i ≤ (numCells : ℤ)) :
    boundaryTopBottom x bt (index i 0) = tbSign bt * x (index i 1) := by
  have hN : numCells = 50 := rfl
  have hcast : ((i.toNat : ℕ) : ℤ) = i := Int.toNat_of_nonneg (by omega)
  unfold boundaryTopBottom
  refine foldl_write_stable _ (index i 0) (index i 1) (fun q => tbSign bt * q) i.toNat _
    (by rw [List.mem_range'_1]; omega) (List.nodup_range' _ _)
    (fun y => by simpa [hcast] using boundaryTopBottomBody_at0 bt y i.toNat) ?_ ?_ x
  · intro y b hb hba
    rw [List.mem_range'_1] at hb
    exact boundaryTopBottomBody_ne bt y b _
      (index_ne _ _ _ _ (by omega)) (index_ne _ _ _ _ (by omega))
  · intro y b hb
    rw [List.mem_range'_1] at hb
    exact boundaryTopBottomBody_ne bt y b _
      (index_ne _ _ _ _ (by omega)) (index_ne _ _ _ _ (by omega))

theorem boundaryTopBottom_bottom (x : Field) (bt : String) (i : ℤ)
    (hi1 : 1 ≤ i) (hi2 : i ≤ (numCells : ℤ)) :
    boundaryTopBottom x bt (index i ((numCells : ℤ) + 1)) =
      tbSign bt * x (index i (numCells : ℤ)) := by
  have hN : numCells = 50 := rfl
  have hcast : ((i.toNat : ℕ) : ℤ) = i := Int.toNat_of_nonneg (by omega)
  unfold boundaryTopBottom
  refine foldl_write_stable _ (index i ((numCells : ℤ) + 1)) (index i (numCells : ℤ))
    (fun q => tbSign bt * q) i.toNat _
    (by rw [List.mem_range'_1]; omega) (List.nodup_range' _ _)
    (fun y => by simpa [hcast] using boundaryTopBottomBody_atB bt y i.toNat) ?_ ?_ x
  · intro y b hb hba
    rw [List.mem_range'_1] at hb
    exact boundaryTopBottomBody_ne bt y b _
      (index_ne _ _ _ _ (by omega)) (index_ne _ _ _ _ (by omega))
  · intro y b hb
    rw [List.mem_range'_1] at hb
    exact boundaryTopBottomBody_ne bt y b _
      (index_ne _ _ _ _ (by omega)) (index_ne _ _ _ _ (by omega))

theorem boundaryLeftRight_left (x : Field) (bt : String) (j : ℤ)
    (hj1 : 1 ≤ j) (hj2 : j ≤ (numCells : ℤ)) :
    boundaryLeftRight x bt (index 0 j) = lrSign bt * x (index 1 j) := by
  have hN : numCells = 50 := rfl
  have hcast : ((j.toNat : ℕ) : ℤ) = j := Int.toNat_of_nonneg (by omega)
  unfold boundaryLeftRight
  refine foldl_write_stable _ (index 0 j) (index 1 j) (fun q => lrSign bt * q) j.toNat _
    (by rw [List.mem_range'_1]; omega) (List.nodup_range' _ _)
    (fun y => by simpa [hcast] using boundaryLeftRightBody_at0 bt y j.toNat) ?_ ?_ x
  · intro y b hb hba
    rw [List.mem_range'_1] at hb
    exact boundaryLeftRightBody_ne bt y b _
      (index_ne _ _ _ _ (by omega)) (index_ne _ _ _ _ (by omega))
  · intro y b hb
    rw [List.mem_range'_1] at hb
    exact boundaryLeftRightBody_ne bt y b _
      (index_ne _ _ _ _ (by omega)) (index_ne _ _ _ _ (by omega))

theorem boundaryLeftRight_right (x : Field) (bt : String) (j : ℤ)
    (hj1 : 1 ≤ j) (hj2 : j ≤ (numCells : ℤ)) :
    boundaryLeftRight x bt (index ((numCells : ℤ) + 1) j) =
      lrSign bt * x (index (numCells : ℤ) j) := by
  have hN : numCells = 50 := rfl
  have hcast : ((j.toNat : ℕ) : ℤ) = j := Int.toNat_of_nonneg (by omega)
  unfold boundaryLeftRight
  refine foldl_write_stable _ (index ((numCells : ℤ) + 1) j) (index (numCells : ℤ) j)
    (fun q => lrSign bt * q) j.toNat _
    (by rw [List.mem_range'_1]; omega) (List.nodup_range' _ _)
    (fun y => by simpa [hcast] using boundaryLeftRightBody_atB bt y j.toNat) ?_ ?_ x
  · intro y b hb hba
    rw [List.mem_range'_1] at hb
    exact boundaryLeftRightBody_ne bt y b _
      (index_ne _ _ _ _ (by omega)) (index_ne _ _ _ _ (by omega))
  · intro y b hb
    rw [List.mem_range'_1] at hb
    exact boundaryLeftRightBody_ne bt y b _
      (index_ne _ _ _ _ (by omega)) (index_ne _ _ _ _ (by omega))

theorem boundaryCorners_ne (y : Field) (k : ℤ)
    (h1 : k ≠ index 0 0) (h2 : k ≠ index ((numCells : ℤ) + 1) 0)
    (h3 : k ≠ index 0 ((numCells : ℤ) + 1))
    (h4 : k ≠ index ((numCells : ℤ) + 1) ((numCells : ℤ) + 1)) :
    boundaryCorners y k = y k := by
  unfold boundaryCorners
  simp only [setCell_ne _ _ _ _ h4, setCell_ne _ _ _ _ h3,
    setCell_ne _ _ _ _ h2, setCell_ne _ _ _ _ h1]

theorem boundaryCorners_c00 (y : Field) :
    boundaryCorners y (index 0 0) = 0.5 * (y (index 0 1) + y (index 1 0)) := by
  have hN : numCells = 50 := rfl
  unfold boundaryCorners
  simp only [setCell_ne _ _ _ _ (index_ne 0 0 ((numCells : ℤ) + 1) ((numCells : ℤ) + 1) (by omega)),
    setCell_ne _ _ _ _ (index_ne 0 0 0 ((numCells : ℤ) + 1) (by omega)),
    setCell_ne _ _ _ _ (index_ne 0 0 ((numCells : ℤ) + 1) 0 (by omega)),
    setCell_same]

theorem boundaryCorners_cB0 (y : Field) :
    boundaryCorners y (index ((numCells : ℤ) + 1) 0) =
      0.5 * (y (index ((numCells : ℤ) + 1) 1) + y (index (numCells : ℤ) 0)) := by
  have hN : numCells = 50 := rfl
  unfold boundaryCorners
  simp only [
    setCell_ne _ _ _ _
      (index_ne ((numCells : ℤ) + 1) 0 ((numCells : ℤ) + 1) ((numCells : ℤ) + 1) (by omega)),
    setCell_ne _ _ _ _ (index_ne ((numCells : ℤ) + 1) 0 0 ((numCells : ℤ) + 1) (by omega)),
    setCell_same,
    setCell_ne _ _ _ _ (index_ne ((numCells : ℤ) + 1) 1 0 0 (by omega)),
    setCell_ne _ _ _ _ (index_ne (numCells : ℤ) 0 0 0 (by omega))]

theorem boundaryCorners_c0B (y : Field) :
    boundaryCorners y (index 0 ((numCells : ℤ) + 1)) =
      0.5 * (y (index 0 (numCells : ℤ)) + y (index 1 ((numCells : ℤ) + 1))) := by
  have hN : numCells = 50 := rfl
  unfold boundaryCorners
  simp only [
    setCell_ne _ _ _ _
      (index_ne 0 ((numCells : ℤ) + 1) ((numCells : ℤ) + 1) ((numCells : ℤ) + 1) (by omega)),
    setCell_same,
    setCell_ne _ _ _ _ (index_ne 0 (numCells : ℤ) ((numCells : ℤ) + 1) 0 (by omega)),
    setCell_ne _ _ _ _ (index_ne 0 (numCells : ℤ) 0 0 (by omega)),
    setCell_ne _ _ _ _ (index_ne 1 ((numCells : ℤ) + 1) ((numCells : ℤ) + 1) 0 (by omega)),
    setCell_ne _ _ _ _ (index_ne 1 ((numCells : ℤ) + 1) 0 0 (by omega))]

theorem boundaryCorners_cBB (y : Field) :
    boundaryCorners y (index ((numCells : ℤ) + 1) ((numCells : ℤ) + 1)) =
      0.5 * (y (index ((numCells : ℤ) + 1) (numCells : ℤ)) +
        y (index (numCells : ℤ) ((numCells : ℤ) + 1))) := by
  have hN : numCells = 50 := rfl
  unfold boundaryCorners
  simp only [setCell_same,
    setCell_ne _ _ _ _
      (index_ne ((numCells : ℤ) + 1) (numCells : ℤ) 0 ((numCells : ℤ) + 1) (by omega)),
    setCell_ne _ _ _ _
      (index_ne ((numCells : ℤ) + 1) (numCells : ℤ) ((numCells : ℤ) + 1) 0 (by omega)),
    setCell_ne _ _ _ _ (index_ne ((numCells : ℤ) + 1) (numCells : ℤ) 0 0 (by omega)),
    setCell_ne _ _ _ _
      (index_ne (numCells : ℤ) ((numCells : ℤ) + 1) 0 ((numCells : ℤ) + 1) (by omega)),
    setCell_ne _ _ _ _
      (index_ne (numCells : ℤ) ((numCells : ℤ) + 1) ((numCells : ℤ) + 1) 0 (by omega)),
    setCell_ne _ _ _ _ (index_ne (numCells : ℤ) ((numCells : ℤ) + 1) 0 0 (by omega))]

/-- Interior cells are untouched by `setBoundary`. -/
theorem setBoundary_interior (x : Field) (bt : String) (i j : ℤ)
    (hi1 : 1 ≤ i) (hi2 : i ≤ (numCells : ℤ)) (hj1 : 1 ≤ j) (hj2 : j ≤ (numCells : ℤ)) :
    setBoundary x bt (index i j) = x (index i j) := by
  have hN : numCells = 50 := rfl
  unfold setBoundary
  rw [boundaryCorners_ne _ _ (index_ne _ _ _ _ (by omega)) (index_ne _ _ _ _ (by omega))
      (index_ne _ _ _ _ (by omega)) (index_ne _ _ _ _ (by omega)),
    boundaryLeftRight_frame _ _ _ (fun b hb1 hb2 =>
      ⟨index_ne _ _ _ _ (by omega), index_ne _ _ _ _ (by omega)⟩),
    boundaryTopBottom_frame _ _ _ (fun b hb1 hb2 =>
      ⟨index_ne _ _ _ _ (by omega), index_ne _ _ _ _ (by omega)⟩)]

/-- Cells outside the allocated array are untouched by `setBoundary`. -/
theorem setBoundary_outside (x : Field) (bt : String) (k : ℤ)
    (hk : k < 0 ∨ (size : ℤ) ≤ k) :
    setBoundary x bt k = x k := by
  have hN : numCells = 50 := rfl
  have hS : (size : ℤ) = 2704 := size_val
  unfold setBoundary
  rw [boundaryCorners_ne _ _ (by rw [index_val]; omega) (by rw [index_val]; omega)
      (by rw [index_val]; omega) (by rw [index_val]; omega),
    boundaryLeftRight_frame _ _ _ (fun b hb1 hb2 =>
      ⟨by rw [index_val]; omega, by rw [index_val]; omega⟩),
    boundaryTopBottom_frame _ _ _ (fun b hb1 hb2 =>
      ⟨by rw [index_val]; omega, by rw [index_val]; omega⟩)]

theorem setBoundary_top (x : Field) (bt : String) (i : ℤ)
    (hi1 : 1 ≤ i) (hi2 : i ≤ (numCells : ℤ)) :
    setBoundary x bt (index i 0) = tbSign bt * x (index i 1) := by
  have hN : numCells = 50 := rfl
  unfold setBoundary
  rw [boundaryCorners_ne _ _ (index_ne _ _ _ _ (by omega)) (index_ne _ _ _ _ (by omega))
      (index_ne _ _ _ _ (by omega)) (index_ne _ _ _ _ (by omega)),
    boundaryLeftRight_frame _ _ _ (fun b hb1 hb2 =>
      ⟨index_ne _ _ _ _ (by omega), index_ne _ _ _ _ (by omega)⟩),
    boundaryTopBottom_top x bt i hi1 hi2]

theorem setBoundary_bottom (x : Field) (bt : String) (i : ℤ)
    (hi1 : 1 ≤ i) (hi2 : i ≤ (numCells : ℤ)) :
    setBoundary x bt (index i ((numCells : ℤ) + 1)) =
      tbSign bt * x (index i (numCells : ℤ)) := by
  have hN : numCells = 50 := rfl
  unfold setBoundary
  rw [boundaryCorners_ne _ _ (index_ne _ _ _ _ (by omega)) (index_ne _ _ _ _ (by omega))
      (index_ne _ _ _ _ (by omega)) (index_ne _ _ _ _ (by omega)),
    boundaryLeftRight_frame _ _ _ (fun b hb1 hb2 =>
      ⟨index_ne _ _ _ _ (by omega), index_ne _ _ _ _ (by omega)⟩),
    boundaryTopBottom_bottom x bt i hi1 hi2]

theorem setBoundary_left (x : Field) (bt : String) (j : ℤ)
    (hj1 : 1 ≤ j) (hj2 : j ≤ (numCells : ℤ)) :
    setBoundary x bt (index 0 j) = lrSign bt * x (index 1 j) := by
  have hN : numCells = 50 := rfl
  unfold setBoundary
  rw [boundaryCorners_ne _ _ (index_ne _ _ _ _ (by omega)) (index_ne _ _ _ _ (by omega))
      (index_ne _ _ _ _ (by omega)) (index_ne _ _ _ _ (by omega)),
    boundaryLeftRight_left _ bt j hj1 hj2,
    boundaryTopBottom_frame _ _ _ (fun b hb1 hb2 =>
      ⟨index_ne _ _ _ _ (by omega), index_ne _ _ _ _ (by omega)⟩)]

theorem setBoundary_right (x : Field) (bt : String) (j : ℤ)
    (hj1 : 1 ≤ j) (hj2 : j ≤ (numCells : ℤ)) :
    setBoundary x bt (index ((numCells : ℤ) + 1) j) =
      lrSign bt * x (index (numCells : ℤ) j) := by
  have hN : numCells = 50 := rfl
  unfold setBoundary
  rw [boundaryCorners_ne _ _ (index_ne _ _ _ _ (by omega)) (index_ne _ _ _ _ (by omega))
      (index_ne _ _ _ _ (by omega)) (index_ne _ _ _ _ (by omega)),
    boundaryLeftRight_right _ bt j hj1 hj2,
    boundaryTopBottom_frame _ _ _ (fun b hb1 hb2 =>
      ⟨index_ne _ _ _ _ (by omega), index_ne _ _ _ _ (by omega)⟩)]

theorem setBoundary_c00 (x : Field) (bt : String) :
    setBoundary x bt (index 0 0) =
      0.5 * (lrSign bt * x (index 1 1) + tbSign bt * x (index 1 1)) := by
  have hN : numCells = 50 := rfl
  unfold setBoundary
  rw [boundaryCorners_c00,
    boundaryLeftRight_left _ bt 1 (by omega) (by omega),
    boundaryLeftRight_frame _ _ (index 1 0) (fun b hb1 hb2 =>
      ⟨index_ne _ _ _ _ (by omega), index_ne _ _ _ _ (by omega)⟩),
    boundaryTopBottom_top x bt 1 (by omega) (by omega),
    boundaryTopBottom_frame _ _ (index 1 1) (fun b hb1 hb2 =>
      ⟨index_ne _ _ _ _ (by omega), index_ne _ _ _ _ (by omega)⟩)]

theorem setBoundary_cB0 (x : Field) (bt : String) :
    setBoundary x bt (index ((numCells : ℤ) + 1) 0) =
      0.5 * (lrSign bt * x (index (numCells : ℤ) 1) +
        tbSign bt * x (index (numCells : ℤ) 1)) := by
  have hN : numCells = 50 := rfl
  unfold setBoundary
  rw [boundaryCorners_cB0,
    boundaryLeftRight_right _ bt 1 (by omega) (by omega),
    boundaryLeftRight_frame _ _ (index (numCells : ℤ) 0) (fun b hb1 hb2 =>
      ⟨index_ne _ _ _ _ (by omega), index_ne _ _ _ _ (by omega)⟩),
    boundaryTopBottom_top x bt (numCells : ℤ) (by omega) (by omega),
    boundaryTopBottom_frame _ _ (index (numCells : ℤ) 1) (fun b hb1 hb2 =>
      ⟨index_ne _ _ _ _ (by omega), index_ne _ _ _ _ (by omega)⟩)]

theorem setBoundary_c0B (x : Field) (bt : String) :
    setBoundary x bt (index 0 ((numCells : ℤ) + 1)) =
      0.5 * (lrSign bt * x (index 1 (numCells : ℤ)) +
        tbSign bt * x (index 1 (numCells : ℤ))) := by
  have hN : numCells = 50 := rfl
  unfold setBoundary
  rw [boundaryCorners_c0B,
    boundaryLeftRight_left _ bt (numCells : ℤ) (by omega) (by omega),
    boundaryLeftRight_frame _ _ (index 1 ((numCells : ℤ) + 1)) (fun b hb1 hb2 =>
      ⟨index_ne _ _ _ _ (by omega), index_ne _ _ _ _ (by omega)⟩),
    boundaryTopBottom_bottom x bt 1 (by omega) (by omega),
    boundaryTopBottom_frame _ _ (index 1 (numCells : ℤ)) (fun b hb1 hb2 =>
      ⟨index_ne _ _ _ _ (by omega), index_ne _ _ _ _ (by omega)⟩)]

theorem setBoundary_cBB (x : Field) (bt : String) :
    setBoundary x bt (index ((numCells : ℤ) + 1) ((numCells : ℤ) + 1)) =
      0.5 * (lrSign bt * x (index (numCells : ℤ) (numCells : ℤ)) +
        tbSign bt * x (index (numCells : ℤ) (numCells : ℤ))) := by
  have hN : numCells = 50 := rfl
  unfold setBoundary
  rw [boundaryCorners_cBB,
    boundaryLeftRight_right _ bt (numCells : ℤ) (by omega) (by omega),
    boundaryLeftRight_frame _ _ (index (numCells : ℤ) ((numCells : ℤ) + 1)) (fun b hb1 hb2 =>
      ⟨index_ne _ _ _ _ (by omega), index_ne _ _ _ _ (by omega)⟩),
    boundaryTopBottom_bottom x bt (numCells : ℤ) (by omega) (by omega),
    boundaryTopBottom_frame _ _ (index (numCells : ℤ) (numCells : ℤ)) (fun b hb1 hb2 =>
      ⟨index_ne _ _ _ _ (by omega), index_ne _ _ _ _ (by omega)⟩)]

theorem tbSign_continuous : tbSign continuousB = 1 := by decide

theorem tbSign_lr : tbSign leftRightWallsB = 1 := by decide

theorem tbSign_tb : tbSign topBottomWallsB = -1 := by decide

theorem lrSign_continuous : lrSign continuousB = 1 := by decide

theorem lrSign_lr : lrSign leftRightWallsB = -1 := by decide

theorem lrSign_tb : lrSign topBottomWallsB = 1 := by decide

/-- If two fields agree on all interior cells, the results of `setBoundary`
agree on every allocated cell (ghost cells are recomputed from the interior). -/
theorem setBoundary_eq_of_agree (x y : Field) (bt : String)
    (hagree : ∀ i j : ℤ, 1 ≤ i → i ≤ (numCells : ℤ) → 1 ≤ j → j ≤ (numCells : ℤ) →
      x (index i j) = y (index i j))
    (k : ℤ) (hk1 : 0 ≤ k) (hk2 : k < (size : ℤ)) :
    setBoundary x bt k = setBoundary y bt k := by
  have hN : numCells = 50 := rfl
  have hS : (size : ℤ) = 2704 := size_val
  obtain ⟨i, j, hi0, hiB, hj0, hjB, hk3⟩ :
      ∃ i j : ℤ, 0 ≤ i ∧ i ≤ (numCells : ℤ) + 1 ∧ 0 ≤ j ∧ j ≤ (numCells : ℤ) + 1 ∧
        k = index i j :=
    ⟨k % 52, k / 52, by omega, by omega, by omega, by omega, by rw [index_val]; omega⟩
  subst hk3
  have hci : (1 ≤ i ∧ i ≤ (numCells : ℤ)) ∨ i = 0 ∨ i = (numCells : ℤ) + 1 := by omega
  have hcj : (1 ≤ j ∧ j ≤ (numCells : ℤ)) ∨ j = 0 ∨ j = (numCells : ℤ) + 1 := by omega
  rcases hci with hi | hi | hi
  · rcases hcj with hj | hj | hj
    · rw [setBoundary_interior x bt i j hi.1 hi.2 hj.1 hj.2,
        setBoundary_interior y bt i j hi.1 hi.2 hj.1 hj.2]
      exact hagree i j hi.1 hi.2 hj.1 hj.2
    · subst hj
      rw [setBoundary_top x bt i hi.1 hi.2, setBoundary_top y bt i hi.1 hi.2,
        hagree i 1 hi.1 hi.2 (by omega) (by omega)]
    · subst hj
      rw [setBoundary_bottom x bt i hi.1 hi.2, setBoundary_bottom y bt i hi.1 hi.2,
        hagree i (numCells : ℤ) hi.1 hi.2 (by omega) (by omega)]
  · subst hi
    rcases hcj with hj | hj | hj
    · rw [setBoundary_left x bt j hj.1 hj.2, setBoundary_left y bt j hj.1 hj.2,
        hagree 1 j (by omega) (by omega) hj.1 hj.2]
    · subst hj
      rw [setBoundary_c00 x bt, setBoundary_c00 y bt,
        hagree 1 1 (by omega) (by omega) (by omega) (by omega)]
    · subst hj
      rw [setBoundary_c0B x bt, setBoundary_c0B y bt,
        hagree 1 (numCells : ℤ) (by omega) (by omega) (by omega) (by omega)]
  · subst hi
    rcases hcj with hj | hj | hj
    · rw [setBoundary_right x bt j hj.1 hj.2, setBoundary_right y bt j hj.1 hj.2,
        hagree (numCells : ℤ) j (by omega) (by omega) hj.1 hj.2]
    · subst hj
      rw [setBoundary_cB0 x bt, setBoundary_cB0 y bt,
        hagree (numCells : ℤ) 1 (by omega) (by omega) (by omega) (by omega)]
    · subst hj
      rw [setBoundary_cBB x bt, setBoundary_cBB y bt,
        hagree (numCells : ℤ) (numCells : ℤ) (by omega) (by omega) (by omega) (by omega)]

/-! ### All-zero fields are preserved by every operation -/

/-- The field is zero in every cell. -/
def ZeroField (x : Field) : Prop := ∀ k, x k = 0

theorem setCell_zero {x : Field} {k : ℤ} {v : ℚ} (hx : ZeroField x) (hv : v = 0) :
    ZeroField (setCell x k v) := by
  intro m
  by_cases h : m = k <;> simp [setCell, h, hv, hx m]

theorem addSource_zero {x s : Field} (hx : ZeroField x) (hs : ZeroField s) :
    ZeroField (addSource x s) := by
  intro k
  unfold addSource
  split_ifs <;> simp [hx k, hs k]

theorem boundaryTopBottomBody_zero (bt : String) {y : Field} (hy : ZeroField y) (b : ℕ) :
    ZeroField (boundaryTopBottomBody bt y b) := by
  have hy' : ∀ m, y m = 0 := hy
  intro k
  unfold boundaryTopBottomBody
  by_cases hbt : bt = topBottomWallsB <;>
    simp only [hbt, if_pos, if_neg, ite_true, ite_false, setCell] <;>
    split_ifs <;> simp [hy']

theorem boundaryLeftRightBody_zero (bt : String) {y : Field} (hy : ZeroField y) (b : ℕ) :
    ZeroField (boundaryLeftRightBody bt y b) := by
  have hy' : ∀ m, y m = 0 := hy
  intro k
  unfold boundaryLeftRightBody
  by_cases hbt : bt = leftRightWallsB <;>
    simp only [hbt, if_pos, if_neg, ite_true, ite_false, setCell] <;>
    split_ifs <;> simp [hy']

theorem boundaryCorners_zero {y : Field} (hy : ZeroField y) : ZeroField (boundaryCorners y) := by
  have hy' : ∀ m, y m = 0 := hy
  intro k
  unfold boundaryCorners
  simp only [setCell]
  split_ifs <;> simp [hy']

theorem setBoundary_zero {x : Field} (bt : String) (hx : ZeroField x) :
    ZeroField (setBoundary x bt) := by
  unfold setBoundary boundaryTopBottom boundaryLeftRight
  exact boundaryCorners_zero
    (foldl_pres ZeroField _ _ (fun y b hb hy => boundaryLeftRightBody_zero bt hy b) _
      (foldl_pres ZeroField _ _ (fun y b hb hy => boundaryTopBottomBody_zero bt hy b) _ hx))

theorem diffuseBody_zero {x_0 x : Field} (a : ℚ) (hx0 : ZeroField x_0) (hx : ZeroField x)
    (q : ℕ × ℕ) : ZeroField (diffuseBody x_0 a x q) := by
  have hx' : ∀ m, x m = 0 := hx
  have hx0' : ∀ m, x_0 m = 0 := hx0
  intro k
  unfold diffuseBody
  simp only [setCell]
  split_ifs <;> simp [hx', hx0']

theorem diffuse_zero {x x_0 : Field} (bt : String) (hx : ZeroField x) (hx0 : ZeroField x_0) :
    ZeroField (diffuse x x_0 bt) := by
  unfold diffuse
  exact foldl_pres ZeroField _ _
    (fun y b hb hy => setBoundary_zero bt
      (foldl_pres ZeroField _ _ (fun z q hq hz => diffuseBody_zero _ hx0 hz q) _ hy)) _ hx

theorem advectValue_zero {x_0 : Field} (u_0 v_0 : Field) (hx0 : ZeroField x_0) (q : ℕ × ℕ) :
    advectValue x_0 u_0 v_0 q = 0 := by
  have hx0' : ∀ m, x_0 m = 0 := hx0
  unfold advectValue
  simp [hx0']

theorem advect_zero {x x_0 : Field} (u_0 v_0 : Field) (bt : String)
    (hx : ZeroField x) (hx0 : ZeroField x_0) :
    ZeroField (advect x x_0 u_0 v_0 bt) := by
  unfold advect
  exact setBoundary_zero bt
    (foldl_pres ZeroField _ _
      (fun y q hq hy => setCell_zero hy (advectValue_zero u_0 v_0 hx0 q)) _ hx)

theorem projectDivValue_zero {u v : Field} (h : ℚ) (hu : ZeroField u) (hv : ZeroField v)
    (q : ℕ × ℕ) : projectDivValue u v h q = 0 := by
  have hu' : ∀ m, u m = 0 := hu
  have hv' : ∀ m, v m = 0 := hv
  unfold projectDivValue
  simp [hu', hv']

theorem projectPoissonBody_zero {div p : Field} (hdiv : ZeroField div) (hp : ZeroField p)
    (q : ℕ × ℕ) : ZeroField (projectPoissonBody div p q) := by
  have hp' : ∀ m, p m = 0 := hp
  have hdiv' : ∀ m, div m = 0 := hdiv
  intro k
  unfold projectPoissonBody
  simp only [setCell]
  split_ifs <;> simp [hp', hdiv']

theorem projectGradBody_zero {p : Field} (h : ℚ) {uv : Field × Field} (hp : ZeroField p)
    (huv : ZeroField uv.1 ∧ ZeroField uv.2) (q : ℕ × ℕ) :
    ZeroField (projectGradBody p h uv q).1 ∧ ZeroField (projectGradBody p h uv q).2 := by
  have hp' : ∀ m, p m = 0 := hp
  have h1' : ∀ m, uv.1 m = 0 := huv.1
  have h2' : ∀ m, uv.2 m = 0 := huv.2
  constructor <;> intro k <;> unfold projectGradBody <;> simp only [setCell] <;>
    split_ifs <;> simp [h1', h2', hp']

theorem project_zero {u v p div : Field}
    (hu : ZeroField u) (hv : ZeroField v) (hp : ZeroField p) (hdiv : ZeroField div) :
    ZeroField (project u v p div).u ∧ ZeroField (project u v p div).v ∧
      ZeroField (project u v p div).p ∧ ZeroField (project u v p div).div := by
  have h1 : ZeroField ((List.range size).foldl (fun p (i : ℕ) => setCell p (i : ℤ) 0) p) :=
    foldl_pres ZeroField _ _ (fun y b hb hy => setCell_zero hy rfl) _ hp
  have h2 : ZeroField (interiorPairs.foldl
      (fun div q => setCell div (index (q.1 : ℤ) (q.2 : ℤ))
        (projectDivValue u v (1 / (numCells : ℚ)) q)) div) :=
    foldl_pres ZeroField _ _
      (fun y q hq hy => setCell_zero hy (projectDivValue_zero _ hu hv q)) _ hdiv
  have h3 : ZeroField (setBoundary (interiorPairs.foldl
      (fun div q => setCell div (index (q.1 : ℤ) (q.2 : ℤ))
        (projectDivValue u v (1 / (numCells : ℚ)) q)) div) continuousB) :=
    setBoundary_zero _ h2
  have h4 : ZeroField ((List.range 10).foldl (fun p _ =>
      setBoundary (interiorPairs.foldl (projectPoissonBody
        (setBoundary (interiorPairs.foldl
          (fun div q => setCell div (index (q.1 : ℤ) (q.2 : ℤ))
            (projectDivValue u v (1 / (numCells : ℚ)) q)) div) continuousB)) p) continuousB)
      ((List.range size).foldl (fun p (i : ℕ) => setCell p (i : ℤ) 0) p)) :=
    foldl_pres ZeroField _ _
      (fun y b hb hy => setBoundary_zero _
        (foldl_pres ZeroField _ _ (fun z q hq hz => projectPoissonBody_zero h3 hz q) _ hy)) _ h1
  have h5 := foldl_pres (fun uv : Field × Field => ZeroField uv.1 ∧ ZeroField uv.2)
    (projectGradBody ((List.range 10).foldl (fun p _ =>
      setBoundary (interiorPairs.foldl (projectPoissonBody
        (setBoundary (interiorPairs.foldl
          (fun div q => setCell div (index (q.1 : ℤ) (q.2 : ℤ))
            (projectDivValue u v (1 / (numCells : ℚ)) q)) div) continuousB)) p) continuousB)
      ((List.range size).foldl (fun p (i : ℕ) => setCell p (i : ℤ) 0) p))
      (1 / (numCells : ℚ)))
    interiorPairs
    (fun y q hq hy => projectGradBody_zero _ h4 hy q) (u, v) ⟨hu, hv⟩
  exact ⟨setBoundary_zero _ h5.1, setBoundary_zero _ h5.2, h4, h3⟩

/-- All nine buffers of the solver state are zero everywhere. -/
def ZeroState (s : FluidState) : Prop :=
  ZeroField s.u ∧ ZeroField s.v ∧ ZeroField s.d ∧ ZeroField s.uPrev ∧ ZeroField s.vPrev ∧
    ZeroField s.dPrev ∧ ZeroField s.uSource ∧ ZeroField s.vSource ∧ ZeroField s.dSource

theorem velocityStep_zero {s : FluidState} (hs : ZeroState s) : ZeroState (velocityStep s) := by
  obtain ⟨hu, hv, hd, hup, hvp, hdp, hus, hvs, hds⟩ := hs
  have h1 : ZeroField (addSource s.u s.uSource) := addSource_zero hu hus
  have h2 : ZeroField (addSource s.v s.vSource) := addSource_zero hv hvs
  have h3 : ZeroField (diffuse s.uPrev (addSource s.u s.uSource) leftRightWallsB) :=
    diffuse_zero _ hup h1
  have h4 : ZeroField (diffuse s.vPrev (addSource s.v s.vSource) topBottomWallsB) :=
    diffuse_zero _ hvp h2
  let r := project (diffuse s.uPrev (addSource s.u s.uSource) leftRightWallsB)
    (diffuse s.vPrev (addSource s.v s.vSource) topBottomWallsB)
    (addSource s.u s.uSource) (addSource s.v s.vSource)
  have h5 := project_zero h3 h4 h1 h2
  have h6 : ZeroField (advect r.p r.u r.u r.v leftRightWallsB) :=
    advect_zero r.u r.v leftRightWallsB h5.2.2.1 h5.1
  have h7 : ZeroField (advect r.div r.v r.u r.v topBottomWallsB) :=
    advect_zero r.u r.v topBottomWallsB h5.2.2.2 h5.2.1
  have h8 := project_zero h6 h7 h5.1 h5.2.1
  exact ⟨h8.1, h8.2.1, hd, h8.2.2.1, h8.2.2.2, hdp, hus, hvs, hds⟩

theorem densityStep_zero {s : FluidState} (hs : ZeroState s) : ZeroState (densityStep s) := by
  obtain ⟨hu, hv, hd, hup, hvp, hdp, hus, hvs, hds⟩ := hs
  have h1 : ZeroField (addSource s.d s.dSource) := addSource_zero hd hds
  have h2 : ZeroField (diffuse s.dPrev (addSource s.d s.dSource) continuousB) :=
    diffuse_zero _ hdp h1
  have h3 : ZeroField (advect (addSource s.d s.dSource)
      (diffuse s.dPrev (addSource s.d s.dSource) continuousB) s.u s.v continuousB) :=
    advect_zero s.u s.v continuousB h1 h2
  exact ⟨hu, hv, h3, hup, hvp, h2, hus, hvs, hds⟩

theorem step_zero {s : FluidState} (hs : ZeroState s) : ZeroState (step s) :=
  densityStep_zero (velocityStep_zero hs)

/-- The all-zero field. -/
def zeroField : Field := fun _ => 0

/-- The initial solver state: every buffer zero-filled. -/
def zeroState : FluidState :=
  ⟨zeroField, zeroField, zeroField, zeroField, zeroField, zeroField,
    zeroField, zeroField, zeroField⟩

theorem zeroState_zero : ZeroState zeroState :=
  ⟨fun _ => rfl, fun _ => rfl, fun _ => rfl, fun _ => rfl, fun _ => rfl,
    fun _ => rfl, fun _ => rfl, fun _ => rfl, fun _ => rfl⟩

/-- C1: Zero-source stability.  Starting from the state in which the density
field, both velocity fields, all previous buffers and all three source
buffers are exactly zero, any number of simulation ticks
(`step = velocityStep then densityStep`) leaves the density and both velocity
fields exactly zero in every cell. -/
theorem zero_source_stability_c1 (n : ℕ) :
    (∀ k, (step^[n] zeroState).d k = 0) ∧ (∀ k, (step^[n] zeroState).u k = 0) ∧
      (∀ k, (step^[n] zeroState).v k = 0) := by
  have h : ZeroState (step^[n] zeroState) := by
    induction n with
    | zero => exact zeroState_zero
    | succ m ih =>
      rw [Function.iterate_succ_apply']
      exact step_zero ih
  exact ⟨h.2.2.1, h.1, h.2.1⟩

/-- Modelled from the spec (§4.6): one tick injects all three sources first
(`velX += dt*sourceX`, `velY += dt*sourceY`, `density += dt*sourceDensity`),
then swap-and-diffuses the velocity (LeftRightWalls for u, TopBottomWalls for
v), projects, swap-and-advects the velocity with the pre-swap velocity as
both transported quantity and transporting field, projects again, and finally
swap-and-diffuses and swap-and-advects the density with Continuous boundary
using the final velocity. -/
def specStep (s : FluidState) : FluidState :=
  let u := addSource s.u s.uSource
  let v := addSource s.v s.vSource
  let d := addSource s.d s.dSource
  let uPrev := s.uPrev
  let vPrev := s.vPrev
  let (u, uPrev) := (uPrev, u)
  let (v, vPrev) := (vPrev, v)
  let u := diffuse u uPrev leftRightWallsB
  let v := diffuse v vPrev topBottomWallsB
  let r := project u v uPrev vPrev
  let u := r.u
  let v := r.v
  let uPrev := r.p
  let vPrev := r.div
  let (u, uPrev) := (uPrev, u)
  let (v, vPrev) := (vPrev, v)
  let u := advect u uPrev uPrev vPrev leftRightWallsB
  let v := advect v vPrev uPrev vPrev topBottomWallsB
  let r2 := project u v uPrev vPrev
  let u := r2.u
  let v := r2.v
  let uPrev := r2.p
  let vPrev := r2.div
  let dPrev := s.dPrev
  let (d, dPrev) := (dPrev, d)
  let d := diffuse d dPrev continuousB
  let (d, dPrev) := (dPrev, d)
  let d := advect d dPrev u v continuousB
  { u := u, v := v, d := d, uPrev := uPrev, vPrev := vPrev, dPrev := dPrev,
    uSource := s.uSource, vSource := s.vSource, dSource := s.dSource }

/-- C3: Stepper order.  The code's `step` — which injects the density source
only at the start of the density phase — is extensionally equal, on every
starting state, to the spec's strictly ordered pipeline that injects all
three sources up front (`specStep`). -/
theorem stepper_pipeline_c3 (s : FluidState) : step s = specStep s := rfl

/-- C6: Boundary mirroring and negation.  After `setBoundary`, for every
interior index `i ∈ [1, N]` the top/bottom ghost cells mirror the adjacent
interior cells under `continuous` and `left_right_walls` and are negated
under `top_bottom_walls`; symmetrically, the left/right ghost cells mirror
the adjacent interior column under `continuous` and `top_bottom_walls` and
are negated under `left_right_walls`. -/
theorem boundary_mirroring_c6 (x : Field) (i : ℤ)
    (h1 : 1 ≤ i) (h2 : i ≤ (numCells : ℤ)) :
    (setBoundary x continuousB (index i 0) = setBoundary x continuousB (index i 1) ∧
      setBoundary x continuousB (index i ((numCells : ℤ) + 1)) =
        setBoundary x continuousB (index i (numCells : ℤ)) ∧
      setBoundary x leftRightWallsB (index i 0) = setBoundary x leftRightWallsB (index i 1) ∧
      setBoundary x leftRightWallsB (index i ((numCells : ℤ) + 1)) =
        setBoundary x leftRightWallsB (index i (numCells : ℤ)) ∧
      setBoundary x topBottomWallsB (index i 0) =
        -(setBoundary x topBottomWallsB (index i 1)) ∧
      setBoundary x topBottomWallsB (index i ((numCells : ℤ) + 1)) =
        -(setBoundary x topBottomWallsB (index i (numCells : ℤ)))) ∧
    (setBoundary x continuousB (index 0 i) = setBoundary x continuousB (index 1 i) ∧
      setBoundary x continuousB (index ((numCells : ℤ) + 1) i) =
        setBoundary x continuousB (index (numCells : ℤ) i) ∧
      setBoundary x topBottomWallsB (index 0 i) = setBoundary x topBottomWallsB (index 1 i) ∧
      setBoundary x topBottomWallsB (index ((numCells : ℤ) + 1) i) =
        setBoundary x topBottomWallsB (index (numCells : ℤ) i) ∧
      setBoundary x leftRightWallsB (index 0 i) =
        -(setBoundary x leftRightWallsB (index 1 i)) ∧
      setBoundary x leftRightWallsB (index ((numCells : ℤ) + 1) i) =
        -(setBoundary x leftRightWallsB (index (numCells : ℤ) i))) := by
  have hN : numCells = 50 := rfl
  refine ⟨⟨?_, ?_, ?_, ?_, ?_, ?_⟩, ?_, ?_, ?_, ?_, ?_, ?_⟩
  · rw [setBoundary_top x continuousB i h1 h2, tbSign_continuous, one_mul,
      setBoundary_interior x continuousB i 1 h1 h2 (by omega) (by omega)]
  · rw [setBoundary_bottom x continuousB i h1 h2, tbSign_continuous, one_mul,
      setBoundary_interior x continuousB i (numCells : ℤ) h1 h2 (by omega) (by omega)]
  · rw [setBoundary_top x leftRightWallsB i h1 h2, tbSign_lr, one_mul,
      setBoundary_interior x leftRightWallsB i 1 h1 h2 (by omega) (by omega)]
  · rw [setBoundary_bottom x leftRightWallsB i h1 h2, tbSign_lr, one_mul,
      setBoundary_interior x leftRightWallsB i (numCells : ℤ) h1 h2 (by omega) (by omega)]
  · rw [setBoundary_top x topBottomWallsB i h1 h2, tbSign_tb, neg_one_mul,
      setBoundary_interior x topBottomWallsB i 1 h1 h2 (by omega) (by omega)]
  · rw [setBoundary_bottom x topBottomWallsB i h1 h2, tbSign_tb, neg_one_mul,
      setBoundary_interior x topBottomWallsB i (numCells : ℤ) h1 h2 (by omega) (by omega)]
  · rw [setBoundary_left x continuousB i h1 h2, lrSign_continuous, one_mul,
      setBoundary_interior x continuousB 1 i (by omega) (by omega) h1 h2]
  · rw [setBoundary_right x continuousB i h1 h2, lrSign_continuous, one_mul,
      setBoundary_interior x continuousB (numCells : ℤ) i (by omega) (by omega) h1 h2]
  · rw [setBoundary_left x topBottomWallsB i h1 h2, lrSign_tb, one_mul,
      setBoundary_interior x topBottomWallsB 1 i (by omega) (by omega) h1 h2]
  · rw [setBoundary_right x topBottomWallsB i h1 h2, lrSign_tb, one_mul,
      setBoundary_interior x topBottomWallsB (numCells : ℤ) i (by omega) (by omega) h1 h2]
  · rw [setBoundary_left x leftRightWallsB i h1 h2, lrSign_lr, neg_one_mul,
      setBoundary_interior x leftRightWallsB 1 i (by omega) (by omega) h1 h2]
  · rw [setBoundary_right x leftRightWallsB i h1 h2, lrSign_lr, neg_one_mul,
      setBoundary_interior x leftRightWallsB (numCells : ℤ) i (by omega) (by omega) h1 h2]

/-- Witness for C6 at the concrete field `k ↦ k` and interior index `i = 7`. -/
theorem boundary_mirroring_c6_witness :
    setBoundary (fun k => (k : ℚ)) continuousB (index 7 0) =
      setBoundary (fun k => (k : ℚ)) continuousB (index 7 1) :=
  (boundary_mirroring_c6 (fun k => (k : ℚ)) 7 (by decide) (by decide)).1.1

/-- C7: Corner averaging.  After any `setBoundary` call, each of the four
corner ghost cells equals exactly `0.5` times the sum of its two adjacent
edge ghost cells. -/
theorem corner_averaging_c7 (x : Field) (bt : String) :
    setBoundary x bt (index 0 0) =
      0.5 * (setBoundary x bt (index 0 1) + setBoundary x bt (index 1 0)) ∧
    setBoundary x bt (index ((numCells : ℤ) + 1) 0) =
      0.5 * (setBoundary x bt (index ((numCells : ℤ) + 1) 1) +
        setBoundary x bt (index (numCells : ℤ) 0)) ∧
    setBoundary x bt (index 0 ((numCells : ℤ) + 1)) =
      0.5 * (setBoundary x bt (index 0 (numCells : ℤ)) +
        setBoundary x bt (index 1 ((numCells : ℤ) + 1))) ∧
    setBoundary x bt (index ((numCells : ℤ) + 1) ((numCells : ℤ) + 1)) =
      0.5 * (setBoundary x bt (index ((numCells : ℤ) + 1) (numCells : ℤ)) +
        setBoundary x bt (index (numCells : ℤ) ((numCells : ℤ) + 1))) := by
  have hN : numCells = 50 := rfl
  refine ⟨?_, ?_, ?_, ?_⟩
  · rw [setBoundary_c00 x bt,
      setBoundary_left x bt 1 (by omega) (by omega),
      setBoundary_top x bt 1 (by omega) (by omega)]
  · rw [setBoundary_cB0 x bt,
      setBoundary_right x bt 1 (by omega) (by omega),
      setBoundary_top x bt (numCells : ℤ) (by omega) (by omega)]
  · rw [setBoundary_c0B x bt,
      setBoundary_left x bt (numCells : ℤ) (by omega) (by omega),
      setBoundary_bottom x bt 1 (by omega) (by omega)]
  · rw [setBoundary_cBB x bt,
      setBoundary_right x bt (numCells : ℤ) (by omega) (by omega),
      setBoundary_bottom x bt (numCells : ℤ) (by omega) (by omega)]

/-- C10: `setBoundary` writes only ghost-border cells: every interior cell
and every cell outside the allocated array is unchanged, and applying
`setBoundary` twice with the same policy equals applying it once. -/
theorem boundary_frame_c10 :
    (∀ (x : Field) (bt : String) (i j : ℤ),
      1 ≤ i → i ≤ (numCells : ℤ) → 1 ≤ j → j ≤ (numCells : ℤ) →
      setBoundary x bt (index i j) = x (index i j)) ∧
    (∀ (x : Field) (bt : String) (k : ℤ), k < 0 ∨ (size : ℤ) ≤ k →
      setBoundary x bt k = x k) ∧
    (∀ (x : Field) (bt : String), setBoundary (setBoundary x bt) bt = setBoundary x bt) := by
  refine ⟨fun x bt i j hi1 hi2 hj1 hj2 => setBoundary_interior x bt i j hi1 hi2 hj1 hj2,
    fun x bt k hk => setBoundary_outside x bt k hk, fun x bt => ?_⟩
  funext k
  by_cases hk : 0 ≤ k ∧ k < (size : ℤ)
  · exact setBoundary_eq_of_agree (setBoundary x bt) x bt
      (fun i j hi1 hi2 hj1 hj2 => setBoundary_interior x bt i j hi1 hi2 hj1 hj2) k hk.1 hk.2
  · exact setBoundary_outside (setBoundary x bt) bt k (by omega)

/-- Witness for C10 at the concrete field `k ↦ k` and interior cell (3, 4). -/
theorem boundary_frame_c10_witness :
    setBoundary (fun k => (k : ℚ)) continuousB (index 3 4) = ((3 : ℚ) + 52 * 4) := by
  rw [boundary_frame_c10.1 (fun k => (k : ℚ)) continuousB 3 4
    (by decide) (by decide) (by decide) (by decide), index_val]
  norm_num

/-- Written from the spec's words (§4.3): 4 Gauss-Seidel sweeps over interior
cells in row-major order (`i` outer, `j` inner), each cell updated in place by
the single formula
`out[i,j] = (in[i,j] + a*(out[i-1,j]+out[i+1,j]+out[i,j-1]+out[i,j+1])) / (1+4a)`
with `a = dt * rate / h²`, `h = 1/N`, and the boundary conditions reapplied
after every sweep. -/
def diffuseSpec (x x_0 : Field) (boundaryType : String) : Field :=
  let rate : ℚ := 0.0001
  let h : ℚ := 1 / (numCells : ℚ)
  let a : ℚ := dt * rate / (h * h)
  (List.range 4).foldl (fun x _ =>
    setBoundary
      (interiorPairs.foldl (fun x q =>
        let i : ℤ := q.1
        let j : ℤ := q.2
        setCell x (index i j)
          ((x_0 (index i j) +
            a * (x (index (i - 1) j) + x (index (i + 1) j) +
                 x (index i (j - 1)) + x (index i (j + 1)))) / (1 + 4 * a))) x)
      boundaryType) x

/-- C5: Diffuser semantics.  The code's `diffuse` — whose cell update is two
sequential in-place statements — computes exactly the spec's Gauss-Seidel
iteration `diffuseSpec`: 4 sweeps, row-major in-place updates with
`out[i,j] = (in[i,j] + a*(4 neighbors))/(1+4a)`, `a = dt*rate/h²`, and the
boundary policy reapplied after every sweep. -/
theorem diffuse_gauss_seidel_c5 (x x_0 : Field) (bt : String) :
    diffuse x x_0 bt = diffuseSpec x x_0 bt := by
  unfold diffuse diffuseSpec
  refine foldl_ext _ _ _ (fun y n hn => ?_) x
  refine congrArg (fun z => setBoundary z bt) ?_
  refine foldl_ext _ _ _ (fun z q hq => ?_) y
  unfold diffuseBody
  simp only [setCell_same, setCell_setCell]

/-- C4 helper: the source's two clamping conditionals compute the clamp of the
coordinate to the closed interval `[0.5, numCells + 0.5]`. -/
theorem clampCoord_eq_min_max (p : ℚ) :
    clampCoord p = min (max p 0.5) ((numCells : ℚ) + 0.5) := by
  have hN : ((numCells : ℕ) : ℚ) = 50 := by norm_num [numCells]
  simp only [clampCoord, hN]
  by_cases ha : p < 0.5
  · rw [if_pos ha, if_neg (by norm_num : ¬((0.5 : ℚ) > 50 + 0.5)),
      max_eq_right ha.le, min_eq_left (by norm_num)]
  · have ha' : (0.5 : ℚ) ≤ p := not_lt.mp ha
    rw [if_neg ha]
    by_cases hb : p > (50 : ℚ) + 0.5
    · rw [if_pos hb, max_eq_left ha', min_eq_right hb.le]
    · have hb' : p ≤ (50 : ℚ) + 0.5 := not_lt.mp hb
      rw [if_neg hb, max_eq_left ha', min_eq_left hb']

theorem index_inj_interior (b1 b2 : ℕ) (i j : ℤ)
    (hb : (1 ≤ b1 ∧ b1 ≤ numCells) ∧ 1 ≤ b2 ∧ b2 ≤ numCells)
    (hi1 : 1 ≤ i) (hi2 : i ≤ (numCells : ℤ)) (hj1 : 1 ≤ j) (hj2 : j ≤ (numCells : ℤ))
    (heq : index (b1 : ℤ) (b2 : ℤ) = index i j) : (b1 : ℤ) = i ∧ (b2 : ℤ) = j := by
  have hN : numCells = 50 := rfl
  rw [index_val, index_val] at heq
  omega

/-- C4: Advection semantics.  For every interior cell `(i, j)`, `advect`
writes the bilinear interpolation of the `x_0` field at the backward-traced
point `(i - dt*u_0[i,j]*N, j - dt*v_0[i,j]*N)` clamped componentwise to
`[0.5, N+0.5]`, with stencil `i0 = ⌊p_x⌋`, `i1 = i0+1` and weights
`s1 = p_x - i0`, `s0 = 1 - s1` (`t0`, `t1` analogously); and the boundary
policy is reapplied once after the full pass, so the ghost cells stand in the
policy's mirror/negation relation to the advected interior cells. -/
theorem advect_semantics_c4 (x x_0 u_0 v_0 : Field) (bt : String) (i j : ℤ)
    (hi1 : 1 ≤ i) (hi2 : i ≤ (numCells : ℤ)) (hj1 : 1 ≤ j) (hj2 : j ≤ (numCells : ℤ)) :
    (advect x x_0 u_0 v_0 bt (index i j) =
      (let p_x : ℚ := min (max ((i : ℚ) - dt * u_0 (index i j) * (numCells : ℚ)) 0.5)
        ((numCells : ℚ) + 0.5)
       let p_y : ℚ := min (max ((j : ℚ) - dt * v_0 (index i j) * (numCells : ℚ)) 0.5)
        ((numCells : ℚ) + 0.5)
       let i0 : ℤ := ⌊p_x⌋
       let i1 : ℤ := i0 + 1
       let j0 : ℤ := ⌊p_y⌋
       let j1 : ℤ := j0 + 1
       let s1 : ℚ := p_x - (i0 : ℚ)
       let s0 : ℚ := 1 - s1
       let t1 : ℚ := p_y - (j0 : ℚ)
       let t0 : ℚ := 1 - t1
       s0 * (t0 * x_0 (index i0 j0) + t1 * x_0 (index i0 j1)) +
         s1 * (t0 * x_0 (index i1 j0) + t1 * x_0 (index i1 j1)))) ∧
    (advect x x_0 u_0 v_0 bt (index i 0) =
        tbSign bt * advect x x_0 u_0 v_0 bt (index i 1) ∧
      advect x x_0 u_0 v_0 bt (index i ((numCells : ℤ) + 1)) =
        tbSign bt * advect x x_0 u_0 v_0 bt (index i (numCells : ℤ)) ∧
      advect x x_0 u_0 v_0 bt (index 0 j) =
        lrSign bt * advect x x_0 u_0 v_0 bt (index 1 j) ∧
      advect x x_0 u_0 v_0 bt (index ((numCells : ℤ) + 1) j) =
        lrSign bt * advect x x_0 u_0 v_0 bt (index (numCells : ℤ) j)) := by
  have hN : numCells = 50 := rfl
  have hci : ((i.toNat : ℕ) : ℤ) = i := Int.toNat_of_nonneg (by omega)
  have hcj : ((j.toNat : ℕ) : ℤ) = j := Int.toNat_of_nonneg (by omega)
  constructor
  · unfold advect
    rw [setBoundary_interior _ bt i j hi1 hi2 hj1 hj2]
    have key : (interiorPairs.foldl
        (fun x q => setCell x (index (q.1 : ℤ) (q.2 : ℤ)) (advectValue x_0 u_0 v_0 q)) x)
          (index i j) = advectValue x_0 u_0 v_0 (i.toNat, j.toNat) := by
      have huniq : ∀ b ∈ interiorPairs,
          index (b.1 : ℤ) (b.2 : ℤ) = index ((i.toNat : ℕ) : ℤ) ((j.toNat : ℕ) : ℤ) →
          advectValue x_0 u_0 v_0 b = advectValue x_0 u_0 v_0 (i.toNat, j.toNat) := by
        intro b hb heq
        obtain ⟨b1, b2⟩ := b
        rw [mem_interiorPairs] at hb
        rw [hci, hcj] at heq
        obtain ⟨e1, e2⟩ := index_inj_interior b1 b2 i j hb hi1 hi2 hj1 hj2 heq
        have e1' : b1 = i.toNat := by omega
        have e2' : b2 = j.toNat := by omega
        rw [e1', e2']
      have hmem : (i.toNat, j.toNat) ∈ interiorPairs :=
        (mem_interiorPairs _ _).mpr ⟨⟨by omega, by omega⟩, by omega, by omega⟩
      have h := foldl_setCell_indep (fun q : ℕ × ℕ => index (q.1 : ℤ) (q.2 : ℤ))
        (advectValue x_0 u_0 v_0) interiorPairs (i.toNat, j.toNat) huniq x (Or.inl hmem)
      simpa [hci, hcj] using h
    rw [key]
    unfold advectValue
    simp only [hci, hcj, clampCoord_eq_min_max]
  · refine ⟨?_, ?_, ?_, ?_⟩
    · unfold advect
      rw [setBoundary_top _ bt i hi1 hi2,
        setBoundary_interior _ bt i 1 hi1 hi2 (by omega) (by omega)]
    · unfold advect
      rw [setBoundary_bottom _ bt i hi1 hi2,
        setBoundary_interior _ bt i (numCells : ℤ) hi1 hi2 (by omega) (by omega)]
    · unfold advect
      rw [setBoundary_left _ bt j hj1 hj2,
        setBoundary_interior _ bt 1 j (by omega) (by omega) hj1 hj2]
    · unfold advect
      rw [setBoundary_right _ bt j hj1 hj2,
        setBoundary_interior _ bt (numCells : ℤ) j (by omega) (by omega) hj1 hj2]

/-- Witness for C4 at zero fields and the interior cell (1, 1): the top ghost
relation of the advected output. -/
theorem advect_semantics_c4_witness :
    advect zeroField zeroField zeroField zeroField continuousB (index 1 0) =
      tbSign continuousB * advect zeroField zeroField zeroField zeroField continuousB
        (index 1 1) :=
  (advect_semantics_c4 zeroField zeroField zeroField zeroField continuousB 1 1
    (by decide) (by decide) (by decide) (by decide)).2.1

/-! ### `project` is insensitive to the initial scratch contents -/

/-- Two fields agree on every allocated cell `0 ≤ k < size`. -/
def AgreeInBounds (x y : Field) : Prop := ∀ k : ℤ, 0 ≤ k → k < (size : ℤ) → x k = y k

/-- A fold that applies related one-step updates to related accumulators
produces related results. -/
theorem foldl_rel {β α : Type} (R : β → β → Prop) (f g : β → α → β) (l : List α)
    (h : ∀ x y a, a ∈ l → R x y → R (f x a) (g y a)) :
    ∀ x y, R x y → R (l.foldl f x) (l.foldl g y) := by
  induction l with
  | nil => intro x y hxy; exact hxy
  | cons b t ih =>
    intro x y hxy
    rw [List.foldl_cons, List.foldl_cons]
    exact ih (fun x y a ha => h x y a (List.mem_cons_of_mem b ha)) _ _
      (h x y b (List.mem_cons_self b t) hxy)

theorem index_in_bounds (i j : ℤ) (h1 : 0 ≤ i) (h2 : i ≤ (numCells : ℤ) + 1)
    (h3 : 0 ≤ j) (h4 : j ≤ (numCells : ℤ) + 1) :
    0 ≤ index i j ∧ index i j < (size : ℤ) := by
  have hN : numCells = 50 := rfl
  rw [index_val, size_val]
  omega

/-- The interior write loops overwrite every interior cell with the loop
value (the written value does not depend on the accumulator). -/
theorem interiorFold_setCell_at (val : ℕ × ℕ → ℚ) (x : Field) (i j : ℤ)
    (hi1 : 1 ≤ i) (hi2 : i ≤ (numCells : ℤ)) (hj1 : 1 ≤ j) (hj2 : j ≤ (numCells : ℤ)) :
    (interiorPairs.foldl (fun x q => setCell x (index (q.1 : ℤ) (q.2 : ℤ)) (val q)) x)
      (index i j) = val (i.toNat, j.toNat) := by
  have hN : numCells = 50 := rfl
  have hci : ((i.toNat : ℕ) : ℤ) = i := Int.toNat_of_nonneg (by omega)
  have hcj : ((j.toNat : ℕ) : ℤ) = j := Int.toNat_of_nonneg (by omega)
  have huniq : ∀ b ∈ interiorPairs,
      index (b.1 : ℤ) (b.2 : ℤ) = index ((i.toNat : ℕ) : ℤ) ((j.toNat : ℕ) : ℤ) →
      val b = val (i.toNat, j.toNat) := by
    intro b hb heq
    obtain ⟨b1, b2⟩ := b
    rw [mem_interiorPairs] at hb
    rw [hci, hcj] at heq
    obtain ⟨e1, e2⟩ := index_inj_interior b1 b2 i j hb hi1 hi2 hj1 hj2 heq
    have e1' : b1 = i.toNat := by omega
    have e2' : b2 = j.toNat := by omega
    rw [e1', e2']
  have hmem : (i.toNat, j.toNat) ∈ interiorPairs :=
    (mem_interiorPairs _ _).mpr ⟨⟨by omega, by omega⟩, by omega, by omega⟩
  have h := foldl_setCell_indep (fun q : ℕ × ℕ => index (q.1 : ℤ) (q.2 : ℤ)) val
    interiorPairs (i.toNat, j.toNat) huniq x (Or.inl hmem)
  simpa [hci, hcj] using h

/-- The zero-fill loop of `project` leaves every allocated cell zero. -/
theorem zeroFill_at (p : Field) (k : ℤ) (h1 : 0 ≤ k) (h2 : k < (size : ℤ)) :
    ((List.range size).foldl (fun p (i : ℕ) => setCell p (i : ℤ) 0) p) k = 0 := by
  have hcast : ((k.toNat : ℕ) : ℤ) = k := Int.toNat_of_nonneg h1
  have h := foldl_setCell_indep (fun i : ℕ => (i : ℤ)) (fun _ => 0) (List.range size) k.toNat
    (fun b hb hbe => rfl) p (Or.inl (List.mem_range.mpr (by omega)))
  simpa [hcast] using h

theorem setBoundary_agree {x y : Field} (bt : String) (h : AgreeInBounds x y) :
    AgreeInBounds (setBoundary x bt) (setBoundary y bt) := by
  intro k hk1 hk2
  refine setBoundary_eq_of_agree x y bt (fun i j hi1 hi2 hj1 hj2 => ?_) k hk1 hk2
  have hb := index_in_bounds i j (by omega) (by omega) (by omega) (by omega)
  exact h _ hb.1 hb.2

theorem poissonBody_rel {div1 div2 : Field} (hdiv : AgreeInBounds div1 div2) :
    ∀ x y q, q ∈ interiorPairs → AgreeInBounds x y →
      AgreeInBounds (projectPoissonBody div1 x q) (projectPoissonBody div2 y q) := by
  intro x y q hq hxy k hk1 hk2
  obtain ⟨q1, q2⟩ := q
  rw [mem_interiorPairs] at hq
  have hN : numCells = 50 := rfl
  unfold projectPoissonBody
  dsimp only
  by_cases hk : k = index (q1 : ℤ) (q2 : ℤ)
  · rw [hk, setCell_same, setCell_same]
    have e1 := index_in_bounds ((q1 : ℤ) - 1) (q2 : ℤ) (by omega) (by omega) (by omega) (by omega)
    have e2 := index_in_bounds ((q1 : ℤ) + 1) (q2 : ℤ) (by omega) (by omega) (by omega) (by omega)
    have e3 := index_in_bounds (q1 : ℤ) ((q2 : ℤ) - 1) (by omega) (by omega) (by omega) (by omega)
    have e4 := index_in_bounds (q1 : ℤ) ((q2 : ℤ) + 1) (by omega) (by omega) (by omega) (by omega)
    have e5 := index_in_bounds (q1 : ℤ) (q2 : ℤ) (by omega) (by omega) (by omega) (by omega)
    rw [hxy _ e1.1 e1.2, hxy _ e2.1 e2.2, hxy _ e3.1 e3.2, hxy _ e4.1 e4.2,
      hdiv _ e5.1 e5.2]
  · rw [setCell_ne _ _ _ _ hk, setCell_ne _ _ _ _ hk]
    exact hxy k hk1 hk2

theorem gradBody_congr {pA pB : Field} (hh : ℚ) (hp : AgreeInBounds pA pB) :
    ∀ (uv : Field × Field) (q : ℕ × ℕ), q ∈ interiorPairs →
      projectGradBody pA hh uv q = projectGradBody pB hh uv q := by
  intro uv q hq
  obtain ⟨q1, q2⟩ := q
  rw [mem_interiorPairs] at hq
  have hN : numCells = 50 := rfl
  unfold projectGradBody
  dsimp only
  have e1 := index_in_bounds ((q1 : ℤ) - 1) (q2 : ℤ) (by omega) (by omega) (by omega) (by omega)
  have e2 := index_in_bounds ((q1 : ℤ) + 1) (q2 : ℤ) (by omega) (by omega) (by omega) (by omega)
  have e3 := index_in_bounds (q1 : ℤ) ((q2 : ℤ) - 1) (by omega) (by omega) (by omega) (by omega)
  have e4 := index_in_bounds (q1 : ℤ) ((q2 : ℤ) + 1) (by omega) (by omega) (by omega) (by omega)
  rw [hp _ e1.1 e1.2, hp _ e2.1 e2.2, hp _ e3.1 e3.2, hp _ e4.1 e4.2]

/-- C9 (implicit): `project` is insensitive to the initial contents of its
two scratch buffers — for any two initial contents of `p` and `div`, the
final `u` and `v` fields are identical, because `p` is zero-filled and every
`div` cell that is later read is first recomputed from `u` and `v`. -/
theorem project_scratch_insensitive_c9 (u v p1 div1 p2 div2 : Field) :
    (project u v p1 div1).u = (project u v p2 div2).u ∧
      (project u v p1 div1).v = (project u v p2 div2).v := by
  have hN : numCells = 50 := rfl
  have hfill : AgreeInBounds
      ((List.range size).foldl (fun p (i : ℕ) => setCell p (i : ℤ) 0) p1)
      ((List.range size).foldl (fun p (i : ℕ) => setCell p (i : ℤ) 0) p2) :=
    fun k h1 h2 => (zeroFill_at p1 k h1 h2).trans (zeroFill_at p2 k h1 h2).symm
  have hdiv : AgreeInBounds
      (setBoundary (interiorPairs.foldl (fun div q =>
        setCell div (index (q.1 : ℤ) (q.2 : ℤ))
          (projectDivValue u v (1 / (numCells : ℚ)) q)) div1) continuousB)
      (setBoundary (interiorPairs.foldl (fun div q =>
        setCell div (index (q.1 : ℤ) (q.2 : ℤ))
          (projectDivValue u v (1 / (numCells : ℚ)) q)) div2) continuousB) := by
    intro k hk1 hk2
    refine setBoundary_eq_of_agree _ _ _ (fun i j hi1 hi2 hj1 hj2 => ?_) k hk1 hk2
    rw [interiorFold_setCell_at _ div1 i j hi1 hi2 hj1 hj2,
      interiorFold_setCell_at _ div2 i j hi1 hi2 hj1 hj2]
  have hpoisson : AgreeInBounds
      ((List.range 10).foldl (fun p _ =>
        setBoundary (interiorPairs.foldl (projectPoissonBody
          (setBoundary (interiorPairs.foldl (fun div q =>
            setCell div (index (q.1 : ℤ) (q.2 : ℤ))
              (projectDivValue u v (1 / (numCells : ℚ)) q)) div1) continuousB)) p)
          continuousB)
        ((List.range size).foldl (fun p (i : ℕ) => setCell p (i : ℤ) 0) p1))
      ((List.range 10).foldl (fun p _ =>
        setBoundary (interiorPairs.foldl (projectPoissonBody
          (setBoundary (interiorPairs.foldl (fun div q =>
            setCell div (index (q.1 : ℤ) (q.2 : ℤ))
              (projectDivValue u v (1 / (numCells : ℚ)) q)) div2) continuousB)) p)
          continuousB)
        ((List.range size).foldl (fun p (i : ℕ) => setCell p (i : ℤ) 0) p2)) := by
    refine foldl_rel AgreeInBounds _ _ _ (fun x y a ha hxy => ?_) _ _ hfill
    exact setBoundary_agree continuousB
      (foldl_rel AgreeInBounds _ _ _ (fun z w q hq hzw => poissonBody_rel hdiv z w q hq hzw)
        _ _ hxy)
  have hgrad := foldl_ext
    (projectGradBody ((List.range 10).foldl (fun p _ =>
      setBoundary (interiorPairs.foldl (projectPoissonBody
        (setBoundary (interiorPairs.foldl (fun div q =>
          setCell div (index (q.1 : ℤ) (q.2 : ℤ))
            (projectDivValue u v (1 / (numCells : ℚ)) q)) div1) continuousB)) p)
        continuousB)
      ((List.range size).foldl (fun p (i : ℕ) => setCell p (i : ℤ) 0) p1))
      (1 / (numCells : ℚ)))
    (projectGradBody ((List.range 10).foldl (fun p _ =>
      setBoundary (interiorPairs.foldl (projectPoissonBody
        (setBoundary (interiorPairs.foldl (fun div q =>
          setCell div (index (q.1 : ℤ) (q.2 : ℤ))
            (projectDivValue u v (1 / (numCells : ℚ)) q)) div2) continuousB)) p)
        continuousB)
      ((List.range size).foldl (fun p (i : ℕ) => setCell p (i : ℤ) 0) p2))
      (1 / (numCells : ℚ)))
    interiorPairs
    (fun uv q hq => gradBody_congr (1 / (numCells : ℚ)) hpoisson uv q hq) (u, v)
  exact ⟨congrArg (fun w : Field × Field => setBoundary w.1 leftRightWallsB) hgrad,
    congrArg (fun w : Field × Field => setBoundary w.2 topBottomWallsB) hgrad⟩

/-! ### Divergence after `project` -/

/-- The discrete central-difference divergence of `(u, v)` at interior cell
`(i, j)`, exactly as computed in the divergence pass of `project`
(`h = 1/numCells`). -/
def divergenceAt (u v : Field) (i j : ℤ) : ℚ :=
  ((u (index (i + 1) j) - u (index (i - 1) j)) / (-2)) * (1 / (numCells : ℚ)) +
    ((v (index i (j + 1)) - v (index i (j - 1))) / (-2)) * (1 / (numCells : ℚ))

/-- The constant-one field. -/
def oneField : Field := fun _ => 1

theorem projectDivValue_one_zero (hh : ℚ) (q : ℕ × ℕ) :
    projectDivValue oneField zeroField hh q = 0 := by
  unfold projectDivValue oneField zeroField
  simp

/-- With an all-zero divergence field and an all-zero initial guess, the
Poisson iteration of `project` stays identically zero. -/
theorem poissonIter_zero {dv fill : Field} (hdv : ZeroField dv) (hfill : ZeroField fill) :
    ZeroField ((List.range 10).foldl (fun p _ =>
      setBoundary (interiorPairs.foldl (projectPoissonBody dv) p) continuousB) fill) :=
  foldl_pres ZeroField _ _
    (fun y b hb hy => setBoundary_zero _
      (foldl_pres ZeroField _ _ (fun z q hq hz => projectPoissonBody_zero hdv hz q) _ hy)) _ hfill

/-- With a zero pressure field, the gradient-subtraction loop leaves a
constant-one `u` and zero `v` unchanged. -/
theorem gradFold_const1 {P0 : Field} (hh : ℚ) (hP : ZeroField P0) :
    (∀ k, (interiorPairs.foldl (projectGradBody P0 hh) (oneField, zeroField)).1 k = 1) ∧
      (∀ k, (interiorPairs.foldl (projectGradBody P0 hh) (oneField, zeroField)).2 k = 0) := by
  have hP' : ∀ m, P0 m = 0 := hP
  refine foldl_pres (fun uv : Field × Field => (∀ k, uv.1 k = 1) ∧ (∀ k, uv.2 k = 0)) _ _
    ?_ _ ⟨fun _ => rfl, fun _ => rfl⟩
  intro uv q hq huv
  obtain ⟨q1, q2⟩ := q
  constructor
  · intro k
    unfold projectGradBody
    dsimp only
    by_cases hk : k = index (q1 : ℤ) (q2 : ℤ)
    · rw [hk, setCell_same, huv.1 _, hP' _, hP' _]
      norm_num
    · rw [setCell_ne _ _ _ _ hk]
      exact huv.1 k
  · intro k
    unfold projectGradBody
    dsimp only
    by_cases hk : k = index (q1 : ℤ) (q2 : ℤ)
    · rw [hk, setCell_same, huv.2 _, hP' _, hP' _]
      norm_num
    · rw [setCell_ne _ _ _ _ hk]
      exact huv.2 k

/-- Explicit form of the `u` component of `project` (definitional). -/
theorem project_u_eq (u v p div : Field) :
    (project u v p div).u =
      setBoundary (interiorPairs.foldl (projectGradBody
          ((List.range 10).foldl (fun p _ =>
            setBoundary (interiorPairs.foldl (projectPoissonBody
              (setBoundary (interiorPairs.foldl (fun div q =>
                setCell div (index (q.1 : ℤ) (q.2 : ℤ))
                  (projectDivValue u v (1 / (numCells : ℚ)) q)) div) continuousB)) p)
              continuousB)
            ((List.range size).foldl (fun p (i : ℕ) => setCell p (i : ℤ) 0) p))
          (1 / (numCells : ℚ))) (u, v)).1 leftRightWallsB := rfl

/-- Explicit form of the `v` component of `project` (definitional). -/
theorem project_v_eq (u v p div : Field) :
    (project u v p div).v =
      setBoundary (interiorPairs.foldl (projectGradBody
          ((List.range 10).foldl (fun p _ =>
            setBoundary (interiorPairs.foldl (projectPoissonBody
              (setBoundary (interiorPairs.foldl (fun div q =>
                setCell div (index (q.1 : ℤ) (q.2 : ℤ))
                  (projectDivValue u v (1 / (numCells : ℚ)) q)) div) continuousB)) p)
              continuousB)
            ((List.range size).foldl (fun p (i : ℕ) => setCell p (i : ℤ) 0) p))
          (1 / (numCells : ℚ))) (u, v)).2 topBottomWallsB := rfl

/-- The four velocity cells around interior cell (1,1) after projecting the
constant field `u ≡ 1`, `v ≡ 0` (zero scratch buffers): the interior stays 1,
but the `left_right_walls` boundary pass negates the left ghost column. -/
theorem project_const1_cells :
    (project oneField zeroField zeroField zeroField).u (index 2 1) = 1 ∧
      (project oneField zeroField zeroField zeroField).u (index 0 1) = -1 ∧
      (project oneField zeroField zeroField zeroField).v (index 1 2) = 0 ∧
      (project oneField zeroField zeroField zeroField).v (index 1 0) = 0 := by
  have hN : numCells = 50 := rfl
  have hfill : ZeroField ((List.range size).foldl
      (fun p (i : ℕ) => setCell p (i : ℤ) 0) zeroField) :=
    foldl_pres ZeroField _ _ (fun y b hb hy => setCell_zero hy rfl) _ (fun _ => rfl)
  have hdl : ZeroField (interiorPairs.foldl (fun div q =>
      setCell div (index (q.1 : ℤ) (q.2 : ℤ))
        (projectDivValue oneField zeroField (1 / (numCells : ℚ)) q)) zeroField) :=
    foldl_pres ZeroField _ _
      (fun y q hq hy => setCell_zero hy (projectDivValue_one_zero _ q)) _ (fun _ => rfl)
  have hdv := setBoundary_zero continuousB hdl
  have hP := poissonIter_zero hdv hfill
  have hg := gradFold_const1 (1 / (numCells : ℚ)) hP
  refine ⟨?_, ?_, ?_, ?_⟩
  · rw [project_u_eq, setBoundary_interior _ _ 2 1 (by omega) (by omega) (by omega) (by omega)]
    exact hg.1 _
  · rw [project_u_eq, setBoundary_left _ _ 1 (by omega) (by omega), lrSign_lr, neg_one_mul,
      hg.1 _]
  · rw [project_v_eq, setBoundary_interior _ _ 1 2 (by omega) (by omega) (by omega) (by omega)]
    exact hg.2 _
  · rw [project_v_eq, setBoundary_top _ _ 1 (by omega) (by omega), tbSign_tb, neg_one_mul,
      hg.2 _]
    norm_num

/-- The recomputed divergence at interior cell (1, 1) after projecting the
constant velocity field `u ≡ 1`, `v ≡ 0` is exactly `−1/50`. -/
theorem project_const1_divergence :
    divergenceAt (project oneField zeroField zeroField zeroField).u
      (project oneField zeroField zeroField zeroField).v 1 1 = -(1 / 50) := by
  have hc := project_const1_cells
  unfold divergenceAt
  have e1 : (1 : ℤ) + 1 = 2 := by norm_num
  have e2 : (1 : ℤ) - 1 = 0 := by norm_num
  rw [e1, e2, hc.1, hc.2.1, hc.2.2.1, hc.2.2.2]
  norm_num [numCells]

/-- C2 counterexample: the claim "after `project` the recomputed divergence at
every interior cell is within 1e-4 of zero, for every input velocity field"
fails at the constant field `u ≡ 1`, `v ≡ 0` (zero scratch buffers): at cell
(1, 1) the recomputed divergence is `−1/50`, whose absolute value exceeds
`1/10000`. -/
theorem divergence_reduction_c2_counterexample :
    ¬ (∀ i j : ℤ, 1 ≤ i → i ≤ (numCells : ℤ) → 1 ≤ j → j ≤ (numCells : ℤ) →
      |divergenceAt (project oneField zeroField zeroField zeroField).u
          (project oneField zeroField zeroField zeroField).v i j| ≤ 1 / 10000) := by
  intro hcl
  have h := hcl 1 1 (by norm_num) (by norm_num [numCells]) (by norm_num)
    (by norm_num [numCells])
  rw [project_const1_divergence] at h
  rw [abs_of_neg (by norm_num : (-(1 / 50) : ℚ) < 0)] at h
  norm_num at h

/-- C2 amended: `project` does not bring the recomputed divergence within
1e-4 of zero for every input (see the counterexample), but for the all-zero
velocity field with zero scratch buffers the recomputed divergence at every
interior cell is exactly zero. -/
theorem divergence_reduction_c2_amended (i j : ℤ)
    (hi1 : 1 ≤ i) (hi2 : i ≤ (numCells : ℤ)) (hj1 : 1 ≤ j) (hj2 : j ≤ (numCells : ℤ)) :
    divergenceAt (project zeroField zeroField zeroField zeroField).u
      (project zeroField zeroField zeroField zeroField).v i j = 0 := by
  have h := @project_zero zeroField zeroField zeroField zeroField
    (fun _ => rfl) (fun _ => rfl) (fun _ => rfl) (fun _ => rfl)
  unfold divergenceAt
  rw [h.1 _, h.1 _, h.2.1 _, h.2.1 _]
  norm_num

/-- Witness for the amended C2 at interior cell (1, 1). -/
theorem divergence_reduction_c2_amended_witness :
    divergenceAt (project zeroField zeroField zeroField zeroField).u
      (project zeroField zeroField zeroField zeroField).v 1 1 = 0 :=
  divergence_reduction_c2_amended 1 1 (by norm_num) (by norm_num [numCells])
    (by norm_num) (by norm_num [numCells])

/-! ### In-bounds accesses: bounds-instrumented clones of the solver passes

Each array access of the solver is replaced by a guarded access that checks
`0 ≤ k < size` (an out-of-bounds read returns a junk value, an out-of-bounds
write is dropped).  Proving the instrumented functions extensionally equal to
the originals, for every input, certifies that every index read or written
stays within the allocated array. -/

/-- A read with the array-bounds check made explicit. -/
def readChecked (x : Field) (k : ℤ) : ℚ := if 0 ≤ k ∧ k < (size : ℤ) then x k else 0

/-- A write with the array-bounds check made explicit. -/
def writeChecked (x : Field) (k : ℤ) (v : ℚ) : Field :=
  if 0 ≤ k ∧ k < (size : ℤ) then setCell x k v else x

def boundaryTopBottomBodyChecked (boundaryType : String) (x : Field) (i : ℕ) : Field :=
  if boundaryType = topBottomWallsB then
    let x1 := writeChecked x (index (i : ℤ) 0) (-(readChecked x (index (i : ℤ) 1)))
    writeChecked x1 (index (i : ℤ) ((numCells : ℤ) + 1))
      (-(readChecked x1 (index (i : ℤ) (numCells : ℤ))))
  else
    let x1 := writeChecked x (index (i : ℤ) 0) (readChecked x (index (i : ℤ) 1))
    writeChecked x1 (index (i : ℤ) ((numCells : ℤ) + 1))
      (readChecked x1 (index (i : ℤ) (numCells : ℤ)))

def boundaryLeftRightBodyChecked (boundaryType : String) (x : Field) (j : ℕ) : Field :=
  if boundaryType = leftRightWallsB then
    let x1 := writeChecked x (index 0 (j : ℤ)) (-(readChecked x (index 1 (j : ℤ))))
    writeChecked x1 (index ((numCells : ℤ) + 1) (j : ℤ))
      (-(readChecked x1 (index (numCells : ℤ) (j : ℤ))))
  else
    let x1 := writeChecked x (index 0 (j : ℤ)) (readChecked x (index 1 (j : ℤ)))
    writeChecked x1 (index ((numCells : ℤ) + 1) (j : ℤ))
      (readChecked x1 (index (numCells : ℤ) (j : ℤ)))

def boundaryCornersChecked (x : Field) : Field :=
  let x := writeChecked x (index 0 0)
    (0.5 * (readChecked x (index 0 1) + readChecked x (index 1 0)))
  let x := writeChecked x (index ((numCells : ℤ) + 1) 0)
    (0.5 * (readChecked x (index ((numCells : ℤ) + 1) 1) + readChecked x (index (numCells : ℤ) 0)))
  let x := writeChecked x (index 0 ((numCells : ℤ) + 1))
    (0.5 * (readChecked x (index 0 (numCells : ℤ)) + readChecked x (index 1 ((numCells : ℤ) + 1))))
  writeChecked x (index ((numCells : ℤ) + 1) ((numCells : ℤ) + 1))
    (0.5 * (readChecked x (index ((numCells : ℤ) + 1) (numCells : ℤ)) +
      readChecked x (index (numCells : ℤ) ((numCells : ℤ) + 1))))

def setBoundaryChecked (x : Field) (boundaryType : String) : Field :=
  boundaryCornersChecked
    ((List.range' 1 numCells).foldl (boundaryLeftRightBodyChecked boundaryType)
      ((List.range' 1 numCells).foldl (boundaryTopBottomBodyChecked boundaryType) x))

def diffuseBodyChecked (x_0 : Field) (a : ℚ) (x : Field) (q : ℕ × ℕ) : Field :=
  let i : ℤ := q.1
  let j : ℤ := q.2
  let x1 := writeChecked x (index i j)
    (readChecked x_0 (index i j) +
      a * (readChecked x (index (i - 1) j) + readChecked x (index (i + 1) j) +
           readChecked x (index i (j - 1)) + readChecked x (index i (j + 1))))
  writeChecked x1 (index i j) (readChecked x1 (index i j) / (1 + 4 * a))

def diffuseChecked (x x_0 : Field) (boundaryType : String) : Field :=
  let diffusion_rate : ℚ := 0.0001
  let numIters : ℕ := 4
  let h : ℚ := 1 / (numCells : ℚ)
  let a : ℚ := dt * diffusion_rate / (h * h)
  (List.range numIters).foldl (fun x _ =>
    setBoundaryChecked (interiorPairs.foldl (diffuseBodyChecked x_0 a) x) boundaryType) x

def advectValueChecked (x_0 u_0 v_0 : Field) (q : ℕ × ℕ) : ℚ :=
  let i : ℤ := q.1
  let j : ℤ := q.2
  let p_x : ℚ := clampCoord ((i : ℚ) - dt * readChecked u_0 (index i j) * (numCells : ℚ))
  let p_y : ℚ := clampCoord ((j : ℚ) - dt * readChecked v_0 (index i j) * (numCells : ℚ))
  let i0 : ℤ := ⌊p_x⌋
  let i1 : ℤ := i0 + 1
  let j0 : ℤ := ⌊p_y⌋
  let j1 : ℤ := j0 + 1
  let s1 : ℚ := p_x - (i0 : ℚ)
  let s0 : ℚ := 1 - s1
  let t1 : ℚ := p_y - (j0 : ℚ)
  let t0 : ℚ := 1 - t1
  s0 * (t0 * readChecked x_0 (index i0 j0) + t1 * readChecked x_0 (index i0 j1)) +
    s1 * (t0 * readChecked x_0 (index i1 j0) + t1 * readChecked x_0 (index i1 j1))

def advectChecked (x x_0 u_0 v_0 : Field) (boundaryType : String) : Field :=
  setBoundaryChecked
    (interiorPairs.foldl
      (fun x q => writeChecked x (index (q.1 : ℤ) (q.2 : ℤ)) (advectValueChecked x_0 u_0 v_0 q))
      x)
    boundaryType

def projectDivValueChecked (u v : Field) (h : ℚ) (q : ℕ × ℕ) : ℚ :=
  let i : ℤ := q.1
  let j : ℤ := q.2
  ((readChecked u (index (i + 1) j) - readChecked u (index (i - 1) j)) / (-2)) * h +
    ((readChecked v (index i (j + 1)) - readChecked v (index i (j - 1))) / (-2)) * h

def projectPoissonBodyChecked (div : Field) (p : Field) (q : ℕ × ℕ) : Field :=
  let i : ℤ := q.1
  let j : ℤ := q.2
  writeChecked p (index i j)
    ((readChecked p (index (i - 1) j) + readChecked p (index (i + 1) j) +
      readChecked p (index i (j - 1)) + readChecked p (index i (j + 1)) +
      readChecked div (index i j)) / 4)

def projectGradBodyChecked (p : Field) (h : ℚ) (uv : Field × Field) (q : ℕ × ℕ) :
    Field × Field :=
  let i : ℤ := q.1
  let j : ℤ := q.2
  let u := writeChecked uv.1 (index i j)
    (readChecked uv.1 (index i j) -
      (readChecked p (index (i + 1) j) - readChecked p (index (i - 1) j)) / (2 * h))
  let v := writeChecked uv.2 (index i j)
    (readChecked uv.2 (index i j) -
      (readChecked p (index i (j + 1)) - readChecked p (index i (j - 1))) / (2 * h))
  (u, v)

def projectChecked (u v p div : Field) : ProjectResult :=
  let numIters : ℕ := 10
  let h : ℚ := 1 / (numCells : ℚ)
  let p := (List.range size).foldl (fun p (i : ℕ) => writeChecked p (i : ℤ) 0) p
  let div := interiorPairs.foldl
    (fun div q => writeChecked div (index (q.1 : ℤ) (q.2 : ℤ))
      (projectDivValueChecked u v h q)) div
  let div := setBoundaryChecked div continuousB
  let p := (List.range numIters).foldl (fun p _ =>
    setBoundaryChecked (interiorPairs.foldl (projectPoissonBodyChecked div) p) continuousB) p
  let uv := interiorPairs.foldl (projectGradBodyChecked p h) (u, v)
  { u := setBoundaryChecked uv.1 leftRightWallsB,
    v := setBoundaryChecked uv.2 topBottomWallsB,
    p := p, div := div }

theorem readChecked_in (x : Field) (k : ℤ) (h1 : 0 ≤ k) (h2 : k < (size : ℤ)) :
    readChecked x k = x k := if_pos ⟨h1, h2⟩

theorem writeChecked_in (x : Field) (k : ℤ) (v : ℚ) (h1 : 0 ≤ k) (h2 : k < (size : ℤ)) :
    writeChecked x k v = setCell x k v := if_pos ⟨h1, h2⟩

/-- After the clamp, the floor of a backtraced coordinate lies in `[0, N]`. -/
theorem clampCoord_floor_bounds (p : ℚ) :
    0 ≤ ⌊clampCoord p⌋ ∧ ⌊clampCoord p⌋ ≤ (numCells : ℤ) := by
  have hN : ((numCells : ℕ) : ℚ) = 50 := by norm_num [numCells]
  rw [clampCoord_eq_min_max]
  constructor
  · refine Int.le_floor.mpr ?_
    push_cast
    have h1 : (0.5 : ℚ) ≤ max p 0.5 := le_max_right _ _
    have h2 : (0.5 : ℚ) ≤ (numCells : ℚ) + 0.5 := by rw [hN]; norm_num
    have h3 := le_min h1 h2
    linarith
  · have h1 : min (max p 0.5) ((numCells : ℚ) + 0.5) ≤ ((numCells : ℤ) : ℚ) + 0.5 := by
      have h0 := min_le_right (max p 0.5) ((numCells : ℚ) + 0.5)
      push_cast
      linarith
    have h2 := Int.floor_le_floor h1
    have h3 : ⌊((numCells : ℤ) : ℚ) + 0.5⌋ = (numCells : ℤ) := by
      rw [Int.floor_int_add]
      norm_num [Int.floor_eq_iff]
    omega

theorem boundaryTopBottomBodyChecked_eq (bt : String) (x : Field) (i : ℕ)
    (h1 : 1 ≤ i) (h2 : i ≤ numCells) :
    boundaryTopBottomBodyChecked bt x i = boundaryTopBottomBody bt x i := by
  have hN : numCells = 50 := rfl
  have e0 := index_in_bounds (i : ℤ) 0 (by omega) (by omega) (by omega) (by omega)
  have e1 := index_in_bounds (i : ℤ) 1 (by omega) (by omega) (by omega) (by omega)
  have eN := index_in_bounds (i : ℤ) (numCells : ℤ) (by omega) (by omega) (by omega) (by omega)
  have eB := index_in_bounds (i : ℤ) ((numCells : ℤ) + 1) (by omega) (by omega) (by omega)
    (by omega)
  unfold boundaryTopBottomBodyChecked boundaryTopBottomBody
  by_cases hbt : bt = topBottomWallsB
  · rw [if_pos hbt, if_pos hbt]
    try dsimp only
    rw [readChecked_in _ _ e1.1 e1.2, writeChecked_in _ _ _ e0.1 e0.2,
      readChecked_in _ _ eN.1 eN.2, writeChecked_in _ _ _ eB.1 eB.2]
  · rw [if_neg hbt, if_neg hbt]
    try dsimp only
    rw [readChecked_in _ _ e1.1 e1.2, writeChecked_in _ _ _ e0.1 e0.2,
      readChecked_in _ _ eN.1 eN.2, writeChecked_in _ _ _ eB.1 eB.2]

theorem boundaryLeftRightBodyChecked_eq (bt : String) (x : Field) (j : ℕ)
    (h1 : 1 ≤ j) (h2 : j ≤ numCells) :
    boundaryLeftRightBodyChecked bt x j = boundaryLeftRightBody bt x j := by
  have hN : numCells = 50 := rfl
  have e0 := index_in_bounds 0 (j : ℤ) (by omega) (by omega) (by omega) (by omega)
  have e1 := index_in_bounds 1 (j : ℤ) (by omega) (by omega) (by omega) (by omega)
  have eN := index_in_bounds (numCells : ℤ) (j : ℤ) (by omega) (by omega) (by omega) (by omega)
  have eB := index_in_bounds ((numCells : ℤ) + 1) (j : ℤ) (by omega) (by omega) (by omega)
    (by omega)
  unfold boundaryLeftRightBodyChecked boundaryLeftRightBody
  by_cases hbt : bt = leftRightWallsB
  · rw [if_pos hbt, if_pos hbt]
    try dsimp only
    rw [readChecked_in _ _ e1.1 e1.2, writeChecked_in _ _ _ e0.1 e0.2,
      readChecked_in _ _ eN.1 eN.2, writeChecked_in _ _ _ eB.1 eB.2]
  · rw [if_neg hbt, if_neg hbt]
    try dsimp only
    rw [readChecked_in _ _ e1.1 e1.2, writeChecked_in _ _ _ e0.1 e0.2,
      readChecked_in _ _ eN.1 eN.2, writeChecked_in _ _ _ eB.1 eB.2]

theorem boundaryCornersChecked_eq (x : Field) :
    boundaryCornersChecked x = boundaryCorners x := by
  have hN : numCells = 50 := rfl
  have e00 := index_in_bounds 0 0 (by omega) (by omega) (by omega) (by omega)
  have e01 := index_in_bounds 0 1 (by omega) (by omega) (by omega) (by omega)
  have e10 := index_in_bounds 1 0 (by omega) (by omega) (by omega) (by omega)
  have eB0 := index_in_bounds ((numCells : ℤ) + 1) 0 (by omega) (by omega) (by omega) (by omega)
  have eB1 := index_in_bounds ((numCells : ℤ) + 1) 1 (by omega) (by omega) (by omega) (by omega)
  have eN0 := index_in_bounds (numCells : ℤ) 0 (by omega) (by omega) (by omega) (by omega)
  have e0B := index_in_bounds 0 ((numCells : ℤ) + 1) (by omega) (by omega) (by omega) (by omega)
  have e0N := index_in_bounds 0 (numCells : ℤ) (by omega) (by omega) (by omega) (by omega)
  have e1B := index_in_bounds 1 ((numCells : ℤ) + 1) (by omega) (by omega) (by omega) (by omega)
  have eBB := index_in_bounds ((numCells : ℤ) + 1) ((numCells : ℤ) + 1) (by omega) (by omega)
    (by omega) (by omega)
  have eBN := index_in_bounds ((numCells : ℤ) + 1) (numCells : ℤ) (by omega) (by omega)
    (by omega) (by omega)
  have eNB := index_in_bounds (numCells : ℤ) ((numCells : ℤ) + 1) (by omega) (by omega)
    (by omega) (by omega)
  unfold boundaryCornersChecked boundaryCorners
  try dsimp only
  rw [readChecked_in _ _ e01.1 e01.2, readChecked_in _ _ e10.1 e10.2,
    writeChecked_in _ _ _ e00.1 e00.2,
    readChecked_in _ _ eB1.1 eB1.2, readChecked_in _ _ eN0.1 eN0.2,
    writeChecked_in _ _ _ eB0.1 eB0.2,
    readChecked_in _ _ e0N.1 e0N.2, readChecked_in _ _ e1B.1 e1B.2,
    writeChecked_in _ _ _ e0B.1 e0B.2,
    readChecked_in _ _ eBN.1 eBN.2, readChecked_in _ _ eNB.1 eNB.2,
    writeChecked_in _ _ _ eBB.1 eBB.2]

theorem setBoundaryChecked_eq (x : Field) (bt : String) :
    setBoundaryChecked x bt = setBoundary x bt := by
  unfold setBoundaryChecked setBoundary boundaryTopBottom boundaryLeftRight
  rw [boundaryCornersChecked_eq,
    foldl_ext (boundaryTopBottomBodyChecked bt) (boundaryTopBottomBody bt) _
      (fun y i hi => boundaryTopBottomBodyChecked_eq bt y i (List.mem_range'_1.mp hi).1
        (by have := List.mem_range'_1.mp hi; omega)) x,
    foldl_ext (boundaryLeftRightBodyChecked bt) (boundaryLeftRightBody bt) _
      (fun y j hj => boundaryLeftRightBodyChecked_eq bt y j (List.mem_range'_1.mp hj).1
        (by have := List.mem_range'_1.mp hj; omega)) _]

theorem diffuseBodyChecked_eq (x_0 : Field) (a : ℚ) (x : Field) (q1 q2 : ℕ)
    (h1 : 1 ≤ q1) (h2 : q1 ≤ numCells) (h3 : 1 ≤ q2) (h4 : q2 ≤ numCells) :
    diffuseBodyChecked x_0 a x (q1, q2) = diffuseBody x_0 a x (q1, q2) := by
  have hN : numCells = 50 := rfl
  have eC := index_in_bounds (q1 : ℤ) (q2 : ℤ) (by omega) (by omega) (by omega) (by omega)
  have eL := index_in_bounds ((q1 : ℤ) - 1) (q2 : ℤ) (by omega) (by omega) (by omega) (by omega)
  have eR := index_in_bounds ((q1 : ℤ) + 1) (q2 : ℤ) (by omega) (by omega) (by omega) (by omega)
  have eD := index_in_bounds (q1 : ℤ) ((q2 : ℤ) - 1) (by omega) (by omega) (by omega) (by omega)
  have eU := index_in_bounds (q1 : ℤ) ((q2 : ℤ) + 1) (by omega) (by omega) (by omega) (by omega)
  unfold diffuseBodyChecked diffuseBody
  dsimp only
  rw [readChecked_in _ _ eC.1 eC.2, readChecked_in _ _ eL.1 eL.2,
    readChecked_in _ _ eR.1 eR.2, readChecked_in _ _ eD.1 eD.2,
    readChecked_in _ _ eU.1 eU.2, writeChecked_in _ _ _ eC.1 eC.2,
    readChecked_in _ _ eC.1 eC.2, writeChecked_in _ _ _ eC.1 eC.2]

theorem diffuseChecked_eq (x x_0 : Field) (bt : String) :
    diffuseChecked x x_0 bt = diffuse x x_0 bt := by
  unfold diffuseChecked diffuse
  refine foldl_ext _ _ _ (fun y n hn => ?_) x
  rw [setBoundaryChecked_eq]
  refine congrArg (fun z => setBoundary z bt) ?_
  refine foldl_ext _ _ _ (fun z q hq => ?_) y
  obtain ⟨q1, q2⟩ := q
  have hq' := (mem_interiorPairs q1 q2).mp hq
  exact diffuseBodyChecked_eq x_0 _ z q1 q2 hq'.1.1 hq'.1.2 hq'.2.1 hq'.2.2

theorem advectValueChecked_eq (x_0 u_0 v_0 : Field) (q1 q2 : ℕ)
    (h1 : 1 ≤ q1) (h2 : q1 ≤ numCells) (h3 : 1 ≤ q2) (h4 : q2 ≤ numCells) :
    advectValueChecked x_0 u_0 v_0 (q1, q2) = advectValue x_0 u_0 v_0 (q1, q2) := by
  have hN : numCells = 50 := rfl
  have eC := index_in_bounds (q1 : ℤ) (q2 : ℤ) (by omega) (by omega) (by omega) (by omega)
  unfold advectValueChecked advectValue
  dsimp only
  rw [readChecked_in _ _ eC.1 eC.2, readChecked_in _ _ eC.1 eC.2]
  have hfx := clampCoord_floor_bounds
    (((q1 : ℤ) : ℚ) - dt * u_0 (index (q1 : ℤ) (q2 : ℤ)) * (numCells : ℚ))
  have hfy := clampCoord_floor_bounds
    (((q2 : ℤ) : ℚ) - dt * v_0 (index (q1 : ℤ) (q2 : ℤ)) * (numCells : ℚ))
  have e00 := index_in_bounds
    ⌊clampCoord (((q1 : ℤ) : ℚ) - dt * u_0 (index (q1 : ℤ) (q2 : ℤ)) * (numCells : ℚ))⌋
    ⌊clampCoord (((q2 : ℤ) : ℚ) - dt * v_0 (index (q1 : ℤ) (q2 : ℤ)) * (numCells : ℚ))⌋
    hfx.1 (by omega) hfy.1 (by omega)
  have e01 := index_in_bounds
    ⌊clampCoord (((q1 : ℤ) : ℚ) - dt * u_0 (index (q1 : ℤ) (q2 : ℤ)) * (numCells : ℚ))⌋
    (⌊clampCoord (((q2 : ℤ) : ℚ) - dt * v_0 (index (q1 : ℤ) (q2 : ℤ)) * (numCells : ℚ))⌋ + 1)
    hfx.1 (by omega) (by omega) (by omega)
  have e10 := index_in_bounds
    (⌊clampCoord (((q1 : ℤ) : ℚ) - dt * u_0 (index (q1 : ℤ) (q2 : ℤ)) * (numCells : ℚ))⌋ + 1)
    ⌊clampCoord (((q2 : ℤ) : ℚ) - dt * v_0 (index (q1 : ℤ) (q2 : ℤ)) * (numCells : ℚ))⌋
    (by omega) (by omega) hfy.1 (by omega)
  have e11 := index_in_bounds
    (⌊clampCoord (((q1 : ℤ) : ℚ) - dt * u_0 (index (q1 : ℤ) (q2 : ℤ)) * (numCells : ℚ))⌋ + 1)
    (⌊clampCoord (((q2 : ℤ) : ℚ) - dt * v_0 (index (q1 : ℤ) (q2 : ℤ)) * (numCells : ℚ))⌋ + 1)
    (by omega) (by omega) (by omega) (by omega)
  rw [readChecked_in _ _ e00.1 e00.2, readChecked_in _ _ e01.1 e01.2,
    readChecked_in _ _ e10.1 e10.2, readChecked_in _ _ e11.1 e11.2]

theorem advectChecked_eq (x x_0 u_0 v_0 : Field) (bt : String) :
    advectChecked x x_0 u_0 v_0 bt = advect x x_0 u_0 v_0 bt := by
  unfold advectChecked advect
  rw [setBoundaryChecked_eq]
  refine congrArg (fun z => setBoundary z bt) ?_
  refine foldl_ext _ _ _ (fun z q hq => ?_) x
  obtain ⟨q1, q2⟩ := q
  have hq' := (mem_interiorPairs q1 q2).mp hq
  have hN : numCells = 50 := rfl
  have eC := index_in_bounds (q1 : ℤ) (q2 : ℤ) (by omega) (by omega) (by omega) (by omega)
  rw [writeChecked_in _ _ _ eC.1 eC.2,
    advectValueChecked_eq x_0 u_0 v_0 q1 q2 hq'.1.1 hq'.1.2 hq'.2.1 hq'.2.2]

theorem projectDivValueChecked_eq (u v : Field) (hh : ℚ) (q1 q2 : ℕ)
    (h1 : 1 ≤ q1) (h2 : q1 ≤ numCells) (h3 : 1 ≤ q2) (h4 : q2 ≤ numCells) :
    projectDivValueChecked u v hh (q1, q2) = projectDivValue u v hh (q1, q2) := by
  have hN : numCells = 50 := rfl
  have eL := index_in_bounds ((q1 : ℤ) - 1) (q2 : ℤ) (by omega) (by omega) (by omega) (by omega)
  have eR := index_in_bounds ((q1 : ℤ) + 1) (q2 : ℤ) (by omega) (by omega) (by omega) (by omega)
  have eD := index_in_bounds (q1 : ℤ) ((q2 : ℤ) - 1) (by omega) (by omega) (by omega) (by omega)
  have eU := index_in_bounds (q1 : ℤ) ((q2 : ℤ) + 1) (by omega) (by omega) (by omega) (by omega)
  unfold projectDivValueChecked projectDivValue
  dsimp only
  rw [readChecked_in _ _ eR.1 eR.2, readChecked_in _ _ eL.1 eL.2,
    readChecked_in _ _ eU.1 eU.2, readChecked_in _ _ eD.1 eD.2]

theorem projectPoissonBodyChecked_eq (dv p : Field) (q1 q2 : ℕ)
    (h1 : 1 ≤ q1) (h2 : q1 ≤ numCells) (h3 : 1 ≤ q2) (h4 : q2 ≤ numCells) :
    projectPoissonBodyChecked dv p (q1, q2) = projectPoissonBody dv p (q1, q2) := by
  have hN : numCells = 50 := rfl
  have eC := index_in_bounds (q1 : ℤ) (q2 : ℤ) (by omega) (by omega) (by omega) (by omega)
  have eL := index_in_bounds ((q1 : ℤ) - 1) (q2 : ℤ) (by omega) (by omega) (by omega) (by omega)
  have eR := index_in_bounds ((q1 : ℤ) + 1) (q2 : ℤ) (by omega) (by omega) (by omega) (by omega)
  have eD := index_in_bounds (q1 : ℤ) ((q2 : ℤ) - 1) (by omega) (by omega) (by omega) (by omega)
  have eU := index_in_bounds (q1 : ℤ) ((q2 : ℤ) + 1) (by omega) (by omega) (by omega) (by omega)
  unfold projectPoissonBodyChecked projectPoissonBody
  dsimp only
  rw [readChecked_in _ _ eL.1 eL.2, readChecked_in _ _ eR.1 eR.2,
    readChecked_in _ _ eD.1 eD.2, readChecked_in _ _ eU.1 eU.2,
    readChecked_in _ _ eC.1 eC.2, writeChecked_in _ _ _ eC.1 eC.2]

theorem projectGradBodyChecked_eq (pp : Field) (hh : ℚ) (uv : Field × Field) (q1 q2 : ℕ)
    (h1 : 1 ≤ q1) (h2 : q1 ≤ numCells) (h3 : 1 ≤ q2) (h4 : q2 ≤ numCells) :
    projectGradBodyChecked pp hh uv (q1, q2) = projectGradBody pp hh uv (q1, q2) := by
  have hN : numCells = 50 := rfl
  have eC := index_in_bounds (q1 : ℤ) (q2 : ℤ) (by omega) (by omega) (by omega) (by omega)
  have eL := index_in_bounds ((q1 : ℤ) - 1) (q2 : ℤ) (by omega) (by omega) (by omega) (by omega)
  have eR := index_in_bounds ((q1 : ℤ) + 1) (q2 : ℤ) (by omega) (by omega) (by omega) (by omega)
  have eD := index_in_bounds (q1 : ℤ) ((q2 : ℤ) - 1) (by omega) (by omega) (by omega) (by omega)
  have eU := index_in_bounds (q1 : ℤ) ((q2 : ℤ) + 1) (by omega) (by omega) (by omega) (by omega)
  unfold projectGradBodyChecked projectGradBody
  dsimp only
  rw [readChecked_in _ _ eC.1 eC.2, readChecked_in _ _ eR.1 eR.2,
    readChecked_in _ _ eL.1 eL.2, writeChecked_in _ _ _ eC.1 eC.2,
    readChecked_in _ _ eC.1 eC.2, readChecked_in _ _ eU.1 eU.2,
    readChecked_in _ _ eD.1 eD.2, writeChecked_in _ _ _ eC.1 eC.2]

theorem projectChecked_eq (u v p div : Field) :
    projectChecked u v p div = project u v p div := by
  have hN : numCells = 50 := rfl
  unfold projectChecked project
  dsimp only
  rw [foldl_ext (fun p (i : ℕ) => writeChecked p (i : ℤ) 0)
      (fun p (i : ℕ) => setCell p (i : ℤ) 0) (List.range size)
      (fun y b hb => writeChecked_in y (b : ℤ) 0 (by omega)
        (by have := List.mem_range.mp hb; omega)) p]
  generalize (List.range size).foldl (fun p (i : ℕ) => setCell p (i : ℤ) 0) p = FILL
  rw [foldl_ext
      (fun div q => writeChecked div (index (q.1 : ℤ) (q.2 : ℤ))
        (projectDivValueChecked u v (1 / (numCells : ℚ)) q))
      (fun div q => setCell div (index (q.1 : ℤ) (q.2 : ℤ))
        (projectDivValue u v (1 / (numCells : ℚ)) q))
      interiorPairs
      (fun y q hq => by
        obtain ⟨q1, q2⟩ := q
        have hq' := (mem_interiorPairs q1 q2).mp hq
        have eC := index_in_bounds (q1 : ℤ) (q2 : ℤ) (by omega) (by omega) (by omega)
          (by omega)
        dsimp only
        rw [writeChecked_in _ _ _ eC.1 eC.2,
          projectDivValueChecked_eq u v _ q1 q2 hq'.1.1 hq'.1.2 hq'.2.1 hq'.2.2]) div]
  generalize interiorPairs.foldl (fun div q => setCell div (index (q.1 : ℤ) (q.2 : ℤ))
    (projectDivValue u v (1 / (numCells : ℚ)) q)) div = DL
  rw [setBoundaryChecked_eq DL continuousB]
  generalize setBoundary DL continuousB = DV
  rw [foldl_ext
      (fun p _ => setBoundaryChecked
        (interiorPairs.foldl (projectPoissonBodyChecked DV) p) continuousB)
      (fun p _ => setBoundary (interiorPairs.foldl (projectPoissonBody DV) p) continuousB)
      (List.range 10)
      (fun y n hn => by
        dsimp only
        rw [setBoundaryChecked_eq]
        refine congrArg (fun z => setBoundary z continuousB) ?_
        refine foldl_ext _ _ _ (fun z q hq => ?_) y
        obtain ⟨q1, q2⟩ := q
        have hq' := (mem_interiorPairs q1 q2).mp hq
        exact projectPoissonBodyChecked_eq DV z q1 q2 hq'.1.1 hq'.1.2 hq'.2.1 hq'.2.2) FILL]
  generalize (List.range 10).foldl (fun p _ =>
    setBoundary (interiorPairs.foldl (projectPoissonBody DV) p) continuousB) FILL = PP
  rw [foldl_ext (projectGradBodyChecked PP (1 / (numCells : ℚ)))
      (projectGradBody PP (1 / (numCells : ℚ))) interiorPairs
      (fun z q hq => by
        obtain ⟨q1, q2⟩ := q
        have hq' := (mem_interiorPairs q1 q2).mp hq
        exact projectGradBodyChecked_eq PP _ z q1 q2 hq'.1.1 hq'.1.2 hq'.2.1 hq'.2.2) (u, v)]
  generalize interiorPairs.foldl (projectGradBody PP (1 / (numCells : ℚ))) (u, v) = UV
  rw [setBoundaryChecked_eq UV.1 leftRightWallsB, setBoundaryChecked_eq UV.2 topBottomWallsB]

/-- C8: In-bounds access.  Replacing every array access of `diffuse`, `advect`
and `project` (including their `setBoundary` calls) by a bounds-checked
access that drops out-of-range writes and returns junk for out-of-range reads
changes nothing, for every input — so every index read or written lies within
`[0, (numCells+2)^2)`; and in `advect`, after the clamp to `[0.5, N+0.5]`,
the bilinear stencil indices `i0 = ⌊clampCoord p⌋` and `i1 = i0 + 1` lie in
`[0, N+1]`. -/
theorem in_bounds_c8 :
    (∀ q : ℚ, 0 ≤ ⌊clampCoord q⌋ ∧ ⌊clampCoord q⌋ ≤ (numCells : ℤ) ∧
      0 ≤ ⌊clampCoord q⌋ + 1 ∧ ⌊clampCoord q⌋ + 1 ≤ (numCells : ℤ) + 1) ∧
    (∀ (x x_0 : Field) (bt : String), diffuseChecked x x_0 bt = diffuse x x_0 bt) ∧
    (∀ (x x_0 u_0 v_0 : Field) (bt : String),
      advectChecked x x_0 u_0 v_0 bt = advect x x_0 u_0 v_0 bt) ∧
    (∀ u v p div : Field, projectChecked u v p div = project u v p div) :=
  ⟨fun q =>
    ⟨(clampCoord_floor_bounds q).1,
     (clampCoord_floor_bounds q).2,
     by have := (clampCoord_floor_bounds q).1; omega,
     by have := (clampCoord_floor_bounds q).2; omega⟩,
   diffuseChecked_eq, advectChecked_eq, projectChecked_eq⟩

end StableFluids
